import Mathlib

/-!
Verification of the plume-inversion core of the Methane-Shadow-Hunter
repository (files src/plume/gaussian_plume.py and src/plume/inversion.py).

The Python code computes with IEEE float64 tensors; this development embeds
the same arithmetic over the real numbers.  Every definition follows the
source line by line; torch autograd derivatives are embedded as the exact
chain-rule derivatives of the closed-form expressions (which is what
autograd computes at points where no subgradient choice arises).
-/

noncomputable section

open Real

/-- Logistic sigmoid, as computed by torch.sigmoid. -/
def sigmoid (x : ℝ) : ℝ := 1 / (1 + Real.exp (-x))

/-- np.clip for scalars: clamp x into the interval from lo to hi. -/
def npClip (x lo hi : ℝ) : ℝ := max lo (min x hi)

/-- Pasquill-Gifford coefficient record (one row of PG_COEFFICIENTS). -/
structure PGCoeff where
  a : ℝ
  b : ℝ
  c : ℝ
  d : ℝ

/-- PG_COEFFICIENTS lookup with the dict.get fallback to class D used by
GaussianPlumeModel._set_pg_coefficients and PlumeInverter._estimate_initial_Q. -/
def pgCoeffOf (cls : String) : PGCoeff :=
  if cls = "A" then ⟨0.22, 0.894, 0.20, 0.894⟩
  else if cls = "B" then ⟨0.16, 0.894, 0.12, 0.894⟩
  else if cls = "C" then ⟨0.11, 0.894, 0.08, 0.894⟩
  else if cls = "D" then ⟨0.08, 0.894, 0.06, 0.894⟩
  else if cls = "E" then ⟨0.06, 0.894, 0.03, 0.894⟩
  else if cls = "F" then ⟨0.04, 0.894, 0.016, 0.894⟩
  else ⟨0.08, 0.894, 0.06, 0.894⟩

/-- State of a GaussianPlumeModel instance: the three learnable parameters
(log_Q, src_x, src_y) plus the fixed height and stability class. -/
structure GaussianPlumeModel where
  log_Q : ℝ
  src_x : ℝ
  src_y : ℝ
  H : ℝ
  stability_class : String

/-- GaussianPlumeModel.__init__: log_Q is initialised to
log(max(emission_rate, 1e-8)); src_x, src_y to the given source position. -/
def GaussianPlumeModel.init (emission_rate source_x source_y source_height : ℝ)
    (stability_class : String) : GaussianPlumeModel :=
  ⟨Real.log (max emission_rate 1e-8), source_x, source_y, source_height, stability_class⟩

/-- The Q property: emission rate in kg/s, exp of the log-parameter. -/
def GaussianPlumeModel.Q (m : GaussianPlumeModel) : ℝ := Real.exp m.log_Q

/-- The Q_kg_hr property. -/
def GaussianPlumeModel.Q_kg_hr (m : GaussianPlumeModel) : ℝ := m.Q * 3600

/-- GaussianPlumeModel.sigma_y: lateral dispersion coefficient in metres as a
function of downwind distance in km (clamped below at 0.01 km). -/
def GaussianPlumeModel.sigma_y (m : GaussianPlumeModel) (x_km : ℝ) : ℝ :=
  (pgCoeffOf m.stability_class).a * (max x_km 0.01) ^ (pgCoeffOf m.stability_class).b * 1000

/-- GaussianPlumeModel.sigma_z: vertical dispersion coefficient in metres. -/
def GaussianPlumeModel.sigma_z (m : GaussianPlumeModel) (x_km : ℝ) : ℝ :=
  (pgCoeffOf m.stability_class).c * (max x_km 0.01) ^ (pgCoeffOf m.stability_class).d * 1000

/-- Body of GaussianPlumeModel.forward at a single receptor (the torch code
is elementwise in the receptor arrays). -/
def concAt (m : GaussianPlumeModel) (ws rx ry rz : ℝ) : ℝ :=
  let Q := m.Q
  let u := max ws 0.5
  let dx := rx - m.src_x
  let dy := ry - m.src_y
  let dz := rz
  let dx_km := dx / 1000
  let downwind_mask := sigmoid (dx * 10)
  let sy := m.sigma_y |dx_km|
  let sz := m.sigma_z |dx_km|
  let lateral := Real.exp (-dy ^ 2 / (2 * sy ^ 2))
  let vertical := Real.exp (-(dz - m.H) ^ 2 / (2 * sz ^ 2))
    + Real.exp (-(dz + m.H) ^ 2 / (2 * sz ^ 2))
  Q / (2 * Real.pi * u * sy * sz) * lateral * vertical * downwind_mask

/-- Elementwise zip of three equal-length receptor coordinate lists. -/
def forwardL (f : ℝ → ℝ → ℝ → ℝ) : List ℝ → List ℝ → List ℝ → List ℝ
  | x :: xs, y :: ys, z :: zs => f x y z :: forwardL f xs ys zs
  | _, _, _ => []

/-- GaussianPlumeModel.forward over receptor position lists. -/
def GaussianPlumeModel.forward (m : GaussianPlumeModel) (rx ry rz : List ℝ)
    (ws : ℝ) : List ℝ :=
  forwardL (fun x y z => concAt m ws x y z) rx ry rz

/-- The concentration formula exactly as the specification states it:
C = Q / (2π u σy σz) · exp(-dy²/(2σy²)) · [exp(-(dz-H)²/(2σz²)) + exp(-(dz+H)²/(2σz²))]
times the smooth downwind mask sigmoid(dx·10), with u = max(wind_speed, 0.5),
Q = exp(log_Q) and the power-law sigmas evaluated at |dx|/1000 clamped below
at 0.01 km. -/
def concSpecC1 (m : GaussianPlumeModel) (ws x y z : ℝ) : ℝ :=
  let dx := x - m.src_x
  let dy := y - m.src_y
  let dz := z
  let u := max ws 0.5
  let Q := Real.exp m.log_Q
  let xkm := max (|dx| / 1000) 0.01
  let co := pgCoeffOf m.stability_class
  let sigy := co.a * xkm ^ co.b * 1000
  let sigz := co.c * xkm ^ co.d * 1000
  Q / (2 * Real.pi * u * sigy * sigz)
    * Real.exp (-dy ^ 2 / (2 * sigy ^ 2))
    * (Real.exp (-(dz - m.H) ^ 2 / (2 * sigz ^ 2))
        + Real.exp (-(dz + m.H) ^ 2 / (2 * sigz ^ 2)))
    * sigmoid (dx * 10)

lemma abs_div_thousand (dx : ℝ) : |dx / 1000| = |dx| / 1000 := by
  rw [abs_div]
  norm_num

/-- Pointwise agreement of the code's forward body with the spec formula. -/
lemma concAt_eq_concSpecC1 (m : GaussianPlumeModel) (ws x y z : ℝ) :
    concAt m ws x y z = concSpecC1 m ws x y z := by
  unfold concAt concSpecC1 GaussianPlumeModel.sigma_y GaussianPlumeModel.sigma_z
    GaussianPlumeModel.Q
  simp only [abs_div_thousand]

lemma forwardL_getElem? (f : ℝ → ℝ → ℝ → ℝ) :
    ∀ (xs ys zs : List ℝ) (i : ℕ) (x y z : ℝ),
      xs[i]? = some x → ys[i]? = some y → zs[i]? = some z →
      (forwardL f xs ys zs)[i]? = some (f x y z) := by
  intro xs
  induction xs with
  | nil => intro ys zs i x y z hx; simp at hx
  | cons a as ih =>
    intro ys zs i x y z hx hy hz
    cases ys with
    | nil => simp at hy
    | cons b bs =>
      cases zs with
      | nil => simp at hz
      | cons c cs =>
        cases i with
        | zero =>
          simp at hx hy hz
          simp [forwardL, hx, hy, hz]
        | succ j =>
          simp at hx hy hz
          simpa [forwardL] using ih bs cs j x y z hx hy hz

/-- C1: for every receptor arrays and wind speed, GaussianPlumeModel.forward
returns elementwise the Gaussian plume concentration
Q / (2π u σy σz) · exp(-dy²/(2σy²)) · [exp(-(dz-H)²/(2σz²)) + exp(-(dz+H)²/(2σz²))]
multiplied by the smooth downwind mask sigmoid(dx·10), with dx, dy, dz, u, Q
and the sigma power laws as the claim states them. -/
theorem claim_C1_forward_formula (m : GaussianPlumeModel) (ws : ℝ)
    (rx ry rz : List ℝ) (i : ℕ) (x y z : ℝ)
    (hx : rx[i]? = some x) (hy : ry[i]? = some y) (hz : rz[i]? = some z) :
    (m.forward rx ry rz ws)[i]? = some (concSpecC1 m ws x y z) := by
  unfold GaussianPlumeModel.forward
  rw [forwardL_getElem? _ rx ry rz i x y z hx hy hz, concAt_eq_concSpecC1]

/-- Witness for C1 at a concrete model and singleton receptor lists. -/
theorem claim_C1_forward_formula_witness :
    (GaussianPlumeModel.forward ⟨0, 0, 0, 5, "D"⟩ [1500] [30] [0] 3)[0]? =
      some (concSpecC1 ⟨0, 0, 0, 5, "D"⟩ 3 1500 30 0) :=
  claim_C1_forward_formula ⟨0, 0, 0, 5, "D"⟩ 3 [1500] [30] [0] 0 1500 30 0 rfl rfl rfl

lemma pgCoeffOf_pos (cls : String) :
    0 < (pgCoeffOf cls).a ∧ 0 < (pgCoeffOf cls).b ∧
    0 < (pgCoeffOf cls).c ∧ 0 < (pgCoeffOf cls).d := by
  unfold pgCoeffOf
  split_ifs <;> norm_num

lemma sigmaPL_pos (a b x : ℝ) (ha : 0 < a) : 0 < a * (max x 0.01) ^ b * 1000 := by
  have hx : (0:ℝ) < max x 0.01 := lt_of_lt_of_le (by norm_num) (le_max_right _ _)
  have := Real.rpow_pos_of_pos hx b
  positivity

lemma sigmaPL_mono (a b x1 x2 : ℝ) (ha : 0 < a) (hb : 0 ≤ b) (h : x1 ≤ x2) :
    a * (max x1 0.01) ^ b * 1000 ≤ a * (max x2 0.01) ^ b * 1000 := by
  have h1 : (0:ℝ) ≤ max x1 0.01 :=
    le_trans (by norm_num) (le_max_right _ _)
  have h2 : max x1 0.01 ≤ max x2 0.01 := max_le_max h le_rfl
  have := Real.rpow_le_rpow h1 h2 hb
  have h1000 : (0:ℝ) ≤ 1000 := by norm_num
  nlinarith [this, ha.le]

/-- C8: for every stability class (A-F and the D fallback), sigma_y and
sigma_z are strictly positive at every downwind distance and monotonically
non-decreasing: for 0 < x1 ≤ x2, sigma(x1) ≤ sigma(x2). -/
theorem claim_C8_sigma_pos_mono (m : GaussianPlumeModel) (x x1 x2 : ℝ) :
    (0 < m.sigma_y x ∧ 0 < m.sigma_z x) ∧
    (0 < x1 → x1 ≤ x2 →
      m.sigma_y x1 ≤ m.sigma_y x2 ∧ m.sigma_z x1 ≤ m.sigma_z x2) := by
  obtain ⟨ha, hb, hc, hd⟩ := pgCoeffOf_pos m.stability_class
  refine ⟨⟨sigmaPL_pos _ _ _ ha, sigmaPL_pos _ _ _ hc⟩, fun _ h12 => ?_⟩
  exact ⟨sigmaPL_mono _ _ _ _ ha hb.le h12, sigmaPL_mono _ _ _ _ hc hd.le h12⟩

/-- Witness for C8: class D model at distances 1 and 2 km. -/
theorem claim_C8_sigma_pos_mono_witness :
    (0 < (1:ℝ) ∧ (1:ℝ) ≤ 2) ∧
    (GaussianPlumeModel.sigma_y ⟨0, 0, 0, 5, "D"⟩ 1 ≤
        GaussianPlumeModel.sigma_y ⟨0, 0, 0, 5, "D"⟩ 2 ∧
      GaussianPlumeModel.sigma_z ⟨0, 0, 0, 5, "D"⟩ 1 ≤
        GaussianPlumeModel.sigma_z ⟨0, 0, 0, 5, "D"⟩ 2) :=
  ⟨⟨by norm_num, by norm_num⟩,
    (claim_C8_sigma_pos_mono ⟨0, 0, 0, 5, "D"⟩ 1 1 2).2 (by norm_num) (by norm_num)⟩

/-- torch.sign convention: sign(0) = 0 (used by autograd through torch.abs). -/
def sgn (x : ℝ) : ℝ := if 0 < x then 1 else if x < 0 then -1 else 0

/-- Derivative of the concentration at one receptor with respect to src_x:
the chain-rule derivative of concAt, which is what autograd computes, with
the torch subgradient conventions for clamp (gradient passes where the input
is at least the bound) and abs (sign(0) = 0) at the kink points. -/
def dConc_dsrcx (m : GaussianPlumeModel) (ws rx ry rz : ℝ) : ℝ :=
  let co := pgCoeffOf m.stability_class
  let Q := m.Q
  let u := max ws 0.5
  let dx := rx - m.src_x
  let dy := ry - m.src_y
  let dz := rz
  let xc := max (|dx| / 1000) 0.01
  let dxc := (if 0.01 ≤ |dx| / 1000 then sgn dx / 1000 else 0) * (-1)
  let sy := co.a * xc ^ co.b * 1000
  let sz := co.c * xc ^ co.d * 1000
  let dsy := co.a * (co.b * xc ^ (co.b - 1)) * 1000 * dxc
  let dsz := co.c * (co.d * xc ^ (co.d - 1)) * 1000 * dxc
  let T := Q / (2 * Real.pi * u * sy * sz)
  let dT := -(Q / (2 * Real.pi * u)) / (sy * sz) ^ 2 * (dsy * sz + sy * dsz)
  let L := Real.exp (-dy ^ 2 / (2 * sy ^ 2))
  let dL := L * (dy ^ 2 / sy ^ 3) * dsy
  let V1 := Real.exp (-(dz - m.H) ^ 2 / (2 * sz ^ 2))
  let V2 := Real.exp (-(dz + m.H) ^ 2 / (2 * sz ^ 2))
  let V := V1 + V2
  let dV := V1 * ((dz - m.H) ^ 2 / sz ^ 3) * dsz + V2 * ((dz + m.H) ^ 2 / sz ^ 3) * dsz
  let S := sigmoid (dx * 10)
  let dS := S * (1 - S) * 10 * (-1)
  dT * L * V * S + T * dL * V * S + T * L * dV * S + T * L * V * dS

/-- Derivative of the concentration at one receptor with respect to src_y:
conc times dy over sigma_y squared (dy = ry - src_y). -/
def dConc_dsrcy (m : GaussianPlumeModel) (ws rx ry rz : ℝ) : ℝ :=
  let co := pgCoeffOf m.stability_class
  let dx := rx - m.src_x
  let dy := ry - m.src_y
  let xc := max (|dx| / 1000) 0.01
  let sy := co.a * xc ^ co.b * 1000
  concAt m ws rx ry rz * dy / sy ^ 2

/-- PlumeInverter constructor arguments. -/
structure InverterConfig where
  learning_rate : ℝ
  convergence_tol : ℝ
  max_iterations : ℕ
  min_iterations : ℕ
  stability_class : String

/-- Arguments of a single invert call. -/
structure InversionInput where
  observed_concentrations : List ℝ
  receptor_x : List ℝ
  receptor_y : List ℝ
  receptor_z : List ℝ
  wind_speed : ℝ
  initial_Q : ℝ
  source_height : ℝ
  true_Q_kg_hr : Option ℝ

/-- np.argmax helper: fold keeping the first index attaining the maximum. -/
def argmaxAux : List ℝ → ℕ → ℕ → ℝ → ℕ
  | [], _, bi, _ => bi
  | x :: xs, i, bi, bv => if bv < x then argmaxAux xs (i + 1) i x
      else argmaxAux xs (i + 1) bi bv

/-- np.argmax: index of the first occurrence of the maximum; none on the
empty list (where numpy raises and the caller's try/except yields None). -/
def argmax? : List ℝ → Option ℕ
  | [] => none
  | x :: xs => some (argmaxAux xs 1 0 x)

/-- PlumeInverter._estimate_initial_Q.  Returns none where the Python
returns None (peak concentration ≤ 0) or where its try/except catches an
exception (empty observations, or the peak index out of range in
receptor_x).  source_height is received but unused, as in the source. -/
def estimate_initial_Q (cls : String) (observed_concentrations receptor_x : List ℝ)
    (wind_speed source_height : ℝ) : Option ℝ :=
  match argmax? observed_concentrations with
  | none => none
  | some peak_idx =>
    let C_peak := observed_concentrations.getD peak_idx 0
    if C_peak ≤ 0 then none
    else
      match receptor_x[peak_idx]? with
      | none => none
      | some rxp =>
        let x_peak := max rxp 10
        let u := max wind_speed 0.5
        let co := pgCoeffOf cls
        let x_km := x_peak / 1000
        let sy := co.a * x_km ^ co.b * 1000
        let sz := co.c * x_km ^ co.d * 1000
        some (npClip (C_peak * 2 * Real.pi * u * sy * sz) 1e-10 100)

/-- Lines 99-103 of invert: the adaptive estimate replaces the caller's
initial_Q exactly when it is not None and strictly exceeds 1e-10. -/
def chooseInitialQ (cls : String) (obs rx : List ℝ) (ws H callerQ : ℝ) : ℝ :=
  match estimate_initial_Q cls obs rx ws H with
  | some q => if 1e-10 < q then q else callerQ
  | none => callerQ

/-- One-dimensional torch broadcast compatibility: equal sizes or one is 1. -/
def broadcastable (a b : ℕ) : Prop := a = b ∨ a = 1 ∨ b = 1

instance (a b : ℕ) : Decidable (broadcastable a b) := by
  unfold broadcastable
  infer_instance

/-- Expand a 1-D tensor to the broadcast length n (identity when already of
length n, replication of the single element when of length 1). -/
def expandTo (n : ℕ) (l : List ℝ) : List ℝ :=
  if l.length = n then l else List.replicate n (l.headD 0)

/-- Mean of a list (torch mean reduction); 0 on the empty list, where the
float code would produce NaN - no settled claim reaches that case. -/
def listMean (l : List ℝ) : ℝ := l.sum / l.length

/-- torch.nn.MSELoss with broadcasting between prediction and target. -/
def mseB (pred target : List ℝ) : ℝ :=
  let n := max pred.length target.length
  listMean ((expandTo n pred).zipWith (fun p o => (p - o) ^ 2) (expandTo n target))

/-- Gradient of mseB with respect to a parameter, given the elementwise
derivative list of the prediction: mean of 2(p - o) dp (broadcast backward
sums the replicated gradient contributions, which the mean realises). -/
def mseGrad (pred dpred target : List ℝ) : ℝ :=
  let n := max pred.length target.length
  listMean (forwardL (fun p o dp => 2 * (p - o) * dp)
    (expandTo n pred) (expandTo n target) (expandTo n dpred))

/-- Adam first/second moment pair for one scalar parameter. -/
structure AdamPair where
  m : ℝ
  v : ℝ

/-- Optimiser plus scheduler state between iterations. -/
structure OptimState where
  model : GaussianPlumeModel
  aQ : AdamPair
  aX : AdamPair
  aY : AdamPair
  t : ℕ
  lr : ℝ
  best : Option ℝ
  num_bad : ℕ
  cooldown_ctr : ℕ

/-- One torch.optim.Adam parameter update with the default hyperparameters
(betas 0.9 and 0.999, eps 1e-8, no weight decay or amsgrad): returns the new
moment pair and the amount subtracted from the parameter.  t is the step
count after incrementing. -/
def adamDelta (lr g : ℝ) (s : AdamPair) (t : ℕ) : AdamPair × ℝ :=
  let mNew := 0.9 * s.m + 0.1 * g
  let vNew := 0.999 * s.v + 0.001 * g ^ 2
  let bc1 := 1 - (0.9 : ℝ) ^ t
  let bc2 := 1 - (0.999 : ℝ) ^ t
  let denom := Real.sqrt vNew / Real.sqrt bc2 + 1e-8
  (⟨mNew, vNew⟩, lr / bc1 * mNew / denom)

/-- torch.optim.lr_scheduler.ReduceLROnPlateau.step with the constructor
arguments used by invert (mode min, factor 0.5, patience 100, min_lr 1e-5)
and the remaining defaults (threshold 1e-4 in rel mode, cooldown 0,
eps 1e-8).  Returns the updated (lr, best, num_bad, cooldown counter). -/
def schedulerStep (lr : ℝ) (best : Option ℝ) (num_bad cooldown_ctr : ℕ)
    (metric : ℝ) : ℝ × Option ℝ × ℕ × ℕ :=
  let isBetter : Bool := match best with
    | none => true
    | some b => decide (metric < b * (1 - 1e-4))
  let best1 := if isBetter then some metric else best
  let numBad1 := if isBetter then 0 else num_bad + 1
  let inCooldown := 0 < cooldown_ctr
  let cd1 := if inCooldown then cooldown_ctr - 1 else cooldown_ctr
  let numBad2 := if inCooldown then 0 else numBad1
  if 100 < numBad2 then
    let shrunk := max (lr * 0.5) 1e-5
    let lrNew := if 1e-8 < lr - shrunk then shrunk else lr
    (lrNew, best1, 0, 0)
  else (lr, best1, numBad2, cd1)

/-- The tensors of one invert call after the observation-scaling prologue. -/
structure PreparedData where
  obsS : List ℝ
  rx : List ℝ
  ry : List ℝ
  rz : List ℝ
  ws : ℝ
  scale : ℝ

/-- Unscaled model predictions at the receptors. -/
def predList (p : PreparedData) (m : GaussianPlumeModel) : List ℝ :=
  m.forward p.rx p.ry p.rz p.ws

/-- Predictions divided by the observation scale (line 129 of invert). -/
def predScaled (p : PreparedData) (m : GaussianPlumeModel) : List ℝ :=
  (predList p m).map (· / p.scale)

/-- The loss of one iteration: MSE between scaled prediction and scaled
observations. -/
def lossOf (p : PreparedData) (m : GaussianPlumeModel) : ℝ :=
  mseB (predScaled p m) p.obsS

/-- Elementwise derivative of the prediction with respect to log_Q: since
Q = exp(log_Q) is a positive factor of the concentration, it is the
prediction itself. -/
def dpredLogQ (p : PreparedData) (m : GaussianPlumeModel) : List ℝ :=
  predList p m

/-- Elementwise derivative of the prediction with respect to src_x. -/
def dpredX (p : PreparedData) (m : GaussianPlumeModel) : List ℝ :=
  forwardL (fun x y z => dConc_dsrcx m p.ws x y z) p.rx p.ry p.rz

/-- Elementwise derivative of the prediction with respect to src_y. -/
def dpredY (p : PreparedData) (m : GaussianPlumeModel) : List ℝ :=
  forwardL (fun x y z => dConc_dsrcy m p.ws x y z) p.rx p.ry p.rz

/-- Gradient of the scaled MSE loss with respect to the parameter whose
elementwise prediction derivative is dpred. -/
def gradOf (p : PreparedData) (m : GaussianPlumeModel) (dpred : List ℝ) : ℝ :=
  mseGrad (predScaled p m) (dpred.map (· / p.scale)) p.obsS

/-- One iteration of the optimisation loop body (lines 126-134 of invert):
loss and gradients at the current parameters, one Adam step per parameter
with the current learning rate, then the scheduler step on the current
loss. -/
def iterStep (p : PreparedData) (s : OptimState) : OptimState :=
  let loss := lossOf p s.model
  let gQ := gradOf p s.model (dpredLogQ p s.model)
  let gX := gradOf p s.model (dpredX p s.model)
  let gY := gradOf p s.model (dpredY p s.model)
  let tNew := s.t + 1
  let rQ := adamDelta s.lr gQ s.aQ tNew
  let rX := adamDelta s.lr gX s.aX tNew
  let rY := adamDelta s.lr gY s.aY tNew
  let modelNew : GaussianPlumeModel :=
    ⟨s.model.log_Q - rQ.2, s.model.src_x - rX.2, s.model.src_y - rY.2,
      s.model.H, s.model.stability_class⟩
  let sc := schedulerStep s.lr s.best s.num_bad s.cooldown_ctr loss
  { model := modelNew, aQ := rQ.1, aX := rX.1, aY := rY.1, t := tNew,
    lr := sc.1, best := sc.2.1, num_bad := sc.2.2.1, cooldown_ctr := sc.2.2.2 }

/-- The optimizer trajectory without the early-convergence break. -/
def optimSeq (p : PreparedData) (s0 : OptimState) : ℕ → OptimState
  | 0 => s0
  | n + 1 => iterStep p (optimSeq p s0 n)

/-- Loss value computed during iteration i (at the pre-step parameters). -/
def lossSeq (p : PreparedData) (s0 : OptimState) (i : ℕ) : ℝ :=
  lossOf p (optimSeq p s0 i).model

/-- State carried by the optimisation loop, including the convergence
bookkeeping (prev_loss as an Option, none standing for the initial float
inf, whose relative-change comparison is NaN and therefore never below the
tolerance). -/
structure LoopResult where
  st : OptimState
  prev : Option ℝ
  final_loss : ℝ
  converged : Bool
  iters : ℕ

/-- The convergence test of lines 139-142: relative loss change below the
tolerance; never true while prev_loss is still the initial infinity. -/
def relOk (prev : Option ℝ) (cur tol : ℝ) : Bool :=
  match prev with
  | none => false
  | some pl => decide (|pl - cur| / (|pl| + 1e-30) < tol)

/-- The for-loop of invert (lines 125-148), fuelled by the remaining
iteration budget; i is the Python loop variable. -/
def loopGo (cfg : InverterConfig) (p : PreparedData) :
    ℕ → ℕ → LoopResult → LoopResult
  | 0, _, r => r
  | fuel + 1, i, r =>
    let loss := lossOf p r.st.model
    let stNew := iterStep p r.st
    if cfg.min_iterations ≤ i ∧ relOk r.prev loss cfg.convergence_tol then
      { st := stNew, prev := r.prev, final_loss := loss, converged := true,
        iters := i + 1 }
    else
      loopGo cfg p fuel (i + 1)
        { st := stNew, prev := some loss, final_loss := loss, converged := false,
          iters := i + 1 }

/-- Second derivative of MSELoss(model.forward(...), obs) with respect to
log_Q: since d pred / d log_Q = pred, the Hessian is mean(2 p (2p - o)).
The code compares the unscaled prediction against the scaled observations
here, exactly as _compute_confidence_interval receives them. -/
def hessianLogQ (p : PreparedData) (m : GaussianPlumeModel) : ℝ :=
  let pred := predList p m
  let n := max pred.length p.obsS.length
  listMean ((expandTo n pred).zipWith (fun q o => 2 * q * (2 * q - o))
    (expandTo n p.obsS))

/-- Lines 222-237 of _compute_confidence_interval as a function of log_Q and
the Hessian value: positive Hessian gives the clipped Wald interval, any
other case (including the try/except fallback) the fixed ±30% interval. -/
def ciFromHessian (log_Q hessian : ℝ) : ℝ × ℝ :=
  if 0 < hessian then
    let se := min (1 / Real.sqrt hessian) 50
    (Real.exp (npClip (log_Q - 1.96 * se) (-50) 50) * 3600,
      Real.exp (npClip (log_Q + 1.96 * se) (-50) 50) * 3600)
  else
    (Real.exp log_Q * 3600 * 0.7, Real.exp log_Q * 3600 * 1.3)

/-- PlumeInverter._compute_confidence_interval. -/
def confidenceInterval (p : PreparedData) (m : GaussianPlumeModel) : ℝ × ℝ :=
  ciFromHessian m.log_Q (hessianLogQ p m)

/-- Round half to even (the Python builtin round tie rule) to an integer. -/
def rhe (x : ℝ) : ℤ :=
  if Int.fract x = 1 / 2 then (if Even ⌊x⌋ then ⌊x⌋ else ⌊x⌋ + 1) else round x

/-- Python round(x, n) over the reals. -/
def roundTo (n : ℕ) (x : ℝ) : ℝ := (rhe (x * 10 ^ n) : ℝ) / 10 ^ n

/-- The InversionResult record. -/
structure InversionResult where
  estimated_Q_kg_hr : ℝ
  estimated_Q_kg_s : ℝ
  estimated_source_x : ℝ
  estimated_source_y : ℝ
  true_Q_kg_hr : Option ℝ
  error_pct : Option ℝ
  confidence_interval : ℝ × ℝ
  final_loss : ℝ
  n_iterations : ℕ
  converged : Bool

/-- Lines 150-174 of invert: confidence interval, unit conversion, error
percentage and construction of the result from the post-loop state. -/
def assembleResult (p : PreparedData) (r : LoopResult) (trueQ : Option ℝ) :
    InversionResult :=
  let ci := confidenceInterval p r.st.model
  let est_hr := r.st.model.Q_kg_hr
  let err := match trueQ with
    | some t => if 0 < t then some (roundTo 2 (100 * |est_hr - t| / t)) else none
    | none => none
  { estimated_Q_kg_hr := roundTo 4 est_hr
    estimated_Q_kg_s := roundTo 8 r.st.model.Q
    estimated_source_x := roundTo 2 r.st.model.src_x
    estimated_source_y := roundTo 2 r.st.model.src_y
    true_Q_kg_hr := trueQ
    error_pct := err
    confidence_interval := (roundTo 4 ci.1, roundTo 4 ci.2)
    final_loss := roundTo 12 r.final_loss
    n_iterations := r.iters
    converged := r.converged }

/-- Lines 90-92 of invert: obs_scale with the all-zero fallback (the
unreachable branch for an empty list is arbitrary, since invert has already
raised on the empty .max() by the time the scale is used). -/
def obsScaleOf (d : InversionInput) : ℝ :=
  match d.observed_concentrations.max? with
  | none => 1
  | some mx => if mx < 1e-15 then 1 else mx

/-- The tensors of an invert call: scaled observations, receptor positions,
wind speed and the observation scale. -/
def prepOf (d : InversionInput) : PreparedData :=
  ⟨d.observed_concentrations.map (· / obsScaleOf d), d.receptor_x, d.receptor_y,
    d.receptor_z, d.wind_speed, obsScaleOf d⟩

/-- Lines 95-112 of invert: the freshly constructed model, starting from the
adaptive (or caller-supplied) initial Q at source offset (0, 0). -/
def model0Of (cfg : InverterConfig) (d : InversionInput) : GaussianPlumeModel :=
  GaussianPlumeModel.init
    (chooseInitialQ cfg.stability_class d.observed_concentrations d.receptor_x
      d.wind_speed d.source_height d.initial_Q)
    0 0 d.source_height cfg.stability_class

/-- Fresh Adam and scheduler state at the start of the loop. -/
def s0Of (cfg : InverterConfig) (d : InversionInput) : OptimState :=
  ⟨model0Of cfg d, ⟨0, 0⟩, ⟨0, 0⟩, ⟨0, 0⟩, 0, cfg.learning_rate, none, 0, 0⟩

/-- PlumeInverter.invert.  The Except value records exactly the places where
the Python raises: .max() on an empty observation tensor; the unbound loop
variable i at n_iterations = i + 1 when max_iterations is 0 (range(0) never
assigns i, and that error fires before the loop body could raise anything);
and a non-broadcastable shape mismatch between the predicted and observed
tensors inside MSELoss.  The broadcast-compatibility check is hoisted out of
the loop, since tensor lengths do not change across iterations. -/
def invert (cfg : InverterConfig) (d : InversionInput) :
    Except String InversionResult :=
  match d.observed_concentrations.max? with
  | none => .error "RuntimeError: max() on empty tensor"
  | some _ =>
    if cfg.max_iterations = 0 then .error "UnboundLocalError: i"
    else if broadcastable (predList (prepOf d) (model0Of cfg d)).length
        (prepOf d).obsS.length then
      .ok (assembleResult (prepOf d)
        (loopGo cfg (prepOf d) cfg.max_iterations 0
          ⟨s0Of cfg d, none, 0, false, 0⟩)
        d.true_Q_kg_hr)
    else .error "RuntimeError: MSELoss size mismatch"

/-- C3: the emission rate Q = exp(log_Q) is strictly positive at model
construction and after every optimizer iteration, for every configuration
and input, because the optimized variable is log_Q and Q is only obtained by
exponentiating it. -/
theorem claim_C3_Q_always_positive (er sx sy h : ℝ) (cls : String)
    (p : PreparedData) (s0 : OptimState) (i : ℕ) :
    0 < (GaussianPlumeModel.init er sx sy h cls).Q ∧
    0 < ((optimSeq p s0 i).model).Q :=
  ⟨Real.exp_pos _, Real.exp_pos _⟩

/-- Per-observation record returned by create_synthetic_observation. -/
structure SyntheticObservation where
  receptor_x : List ℝ
  receptor_y : List ℝ
  receptor_z : List ℝ
  observed_concentrations : List ℝ
  true_concentrations : List ℝ
  true_Q_kg_s : ℝ
  true_Q_kg_hr : ℝ
  wind_speed : ℝ
  source_height : ℝ
  stability_class : String

/-- The seed of create_synthetic_observation:
int(abs(true_Q_kg_s·1e6 + wind_speed·1e3 + source_height·10)) mod 2^31
(int truncation of a nonnegative float is the floor). -/
def synthSeed (true_Q_kg_s wind_speed source_height : ℝ) : ℕ :=
  (⌊|true_Q_kg_s * 1e6 + wind_speed * 1e3 + source_height * 10|⌋).toNat % 2 ^ 31

/-- PlumeInverter.create_synthetic_observation, with np.random.RandomState
(the MT19937 generator) abstracted: stream seed j is the j-th uniform [0,1)
variate of the generator seeded with seed, and gauss shapes variates into a
standard normal (rng.normal(0, s, n) equals s times standard normal draws).
The two rng.uniform calls consume draws 0..n-1 and n..2n-1 in order, and the
later rng.normal call consumes draws from index 2n on; numpy uniform(lo, hi)
is lo + (hi - lo) times the raw variate. -/
def create_synthetic_observation (stream : ℕ → ℕ → ℝ) (gauss : ℝ → ℝ)
    (true_Q_kg_s wind_speed source_height : ℝ) (stability_class : String)
    (n_receptors : ℕ) (domain_m noise_level : ℝ) : SyntheticObservation :=
  let seed := synthSeed true_Q_kg_s wind_speed source_height
  let rx := (List.range n_receptors).map fun i =>
    100 + (domain_m - 100) * stream seed i
  let ry := (List.range n_receptors).map fun i =>
    -(domain_m / 3) + (2 * domain_m / 3) * stream seed (n_receptors + i)
  let rz := List.replicate n_receptors (0 : ℝ)
  let true_model := GaussianPlumeModel.init true_Q_kg_s 0 0 source_height
    stability_class
  let true_conc := true_model.forward rx ry rz wind_speed
  let mxc := (true_conc.max?).getD 0
  let observed := (List.range n_receptors).map fun i =>
    max (true_conc.getD i 0
      + noise_level * mxc * gauss (stream seed (2 * n_receptors + i))) 0
  { receptor_x := rx, receptor_y := ry, receptor_z := rz,
    observed_concentrations := observed, true_concentrations := true_conc,
    true_Q_kg_s := true_Q_kg_s, true_Q_kg_hr := true_Q_kg_s * 3600,
    wind_speed := wind_speed, source_height := source_height,
    stability_class := stability_class }

/-- C10: the receptor positions of create_synthetic_observation are a
function of only (true_Q_kg_s, wind_speed, source_height, n_receptors,
domain_m): two calls that differ only in stability_class and/or noise_level
return identical receptor_x, receptor_y, receptor_z arrays, and the seed
itself is a function of (true_Q_kg_s, wind_speed, source_height) alone.
Determinism under identical arguments holds because the embedding is a pure
function of the abstracted generator stream. -/
theorem claim_C10_receptor_determinism (stream : ℕ → ℕ → ℝ) (gauss : ℝ → ℝ)
    (Q ws H : ℝ) (n : ℕ) (dom : ℝ) (cls cls' : String) (nl nl' : ℝ) :
    (create_synthetic_observation stream gauss Q ws H cls n dom nl).receptor_x =
      (create_synthetic_observation stream gauss Q ws H cls' n dom nl').receptor_x ∧
    (create_synthetic_observation stream gauss Q ws H cls n dom nl).receptor_y =
      (create_synthetic_observation stream gauss Q ws H cls' n dom nl').receptor_y ∧
    (create_synthetic_observation stream gauss Q ws H cls n dom nl).receptor_z =
      (create_synthetic_observation stream gauss Q ws H cls' n dom nl').receptor_z :=
  ⟨rfl, rfl, rfl⟩

lemma sqrt_one_div_ten_thousand : Real.sqrt (1 / 10000) = 1 / 100 := by
  rw [show (1 / 10000 : ℝ) = (1 / 100) ^ 2 by norm_num]
  exact Real.sqrt_sq (by norm_num)

lemma exp_scaled_ne (a b : ℝ) (h : a ≠ b) :
    Real.exp a * 3600 ≠ Real.exp b * 3600 := by
  intro hh
  exact h (Real.exp_injective (mul_right_cancel₀ (by norm_num) hh))

/-- C6 counterexample: at log_Q = 0 and Hessian 1/10000 (so SE caps at 50),
the code's lower CI bound is exp(-50)·3600 because the exponent is clipped
to [-50, 50], not the exp(log_Q - 1.96·SE)·3600 = exp(-98)·3600 stated by
the claim. -/
theorem claim_C6_counterexample :
    (ciFromHessian 0 (1 / 10000)).1 = Real.exp (-50) * 3600 ∧
    Real.exp (-50) * 3600 ≠
      Real.exp (0 - 1.96 * min (1 / Real.sqrt (1 / 10000)) 50) * 3600 := by
  have hse : min (1 / Real.sqrt (1 / 10000)) 50 = 50 := by
    rw [sqrt_one_div_ten_thousand]
    norm_num
  constructor
  · unfold ciFromHessian
    rw [if_pos (by norm_num : (0:ℝ) < 1 / 10000)]
    simp only [hse]
    have hclip : npClip ((0:ℝ) - 1.96 * 50) (-50) 50 = -50 := by
      unfold npClip
      rw [min_eq_left (by norm_num), max_eq_left (by norm_num)]
    rw [hclip]
  · rw [hse]
    exact exp_scaled_ne _ _ (by norm_num)

/-- The confidence-interval step as the amended claim states it: when the
Hessian is positive, SE = 1/sqrt(hessian) capped at 50 and the bounds are
exp of log_Q minus/plus 1.96·SE, additionally clipped into [-50, 50], times
3600;
when the Hessian is non-positive (or the computation fails), the fallback
interval (0.7, 1.3) times the kg/hr point estimate. -/
def ciSpecC6 (log_Q hessian : ℝ) : ℝ × ℝ :=
  if 0 < hessian then
    let se := min (1 / Real.sqrt hessian) 50
    (Real.exp (npClip (log_Q - 1.96 * se) (-50) 50) * 3600,
      Real.exp (npClip (log_Q + 1.96 * se) (-50) 50) * 3600)
  else
    (0.7 * (Real.exp log_Q * 3600), 1.3 * (Real.exp log_Q * 3600))

/-- C6 amended: the confidence-interval step equals the claim's description
once the exponent clipping into [-50, 50] is added; the non-positive-Hessian
and failure cases give the ±30% fallback and no exception escapes (the
embedding of the step is a total function). -/
theorem claim_C6_amended (log_Q hessian : ℝ) :
    ciFromHessian log_Q hessian = ciSpecC6 log_Q hessian := by
  unfold ciFromHessian ciSpecC6
  split_ifs with h
  · rfl
  · simp only [Prod.mk.injEq]
    constructor <;> ring

lemma npClip_comm (x lo hi : ℝ) (h : lo ≤ hi) : npClip x lo hi = min (max x lo) hi := by
  unfold npClip
  rw [max_min_distrib_left, max_comm lo x, max_eq_right h]

/-- The adaptive initial-Q computation as the amended claim states it: take
the first receptor index attaining the peak observed concentration; if the
peak value is positive and the index has a receptor coordinate, floor that
downwind distance at 10 m, evaluate the stability-class power-law sigmas
there, invert C_peak = Q / (2π u σy σz) with u = max(wind speed, 0.5), and
clamp the result into [1e-10, 100]; in every other case (empty observations,
non-positive peak, missing coordinate) the estimate is undefined. -/
def estimateInitialQSpecC7 (cls : String) (obs rx : List ℝ) (ws : ℝ) : Option ℝ :=
  match argmax? obs with
  | none => none
  | some i =>
    if 0 < obs.getD i 0 then
      match rx[i]? with
      | some xr =>
        let u := max ws 0.5
        let x := max xr 10
        let co := pgCoeffOf cls
        let sy := co.a * (x / 1000) ^ co.b * 1000
        let sz := co.c * (x / 1000) ^ co.d * 1000
        some (min (max (obs.getD i 0 * (2 * Real.pi) * u * sy * sz) 1e-10) 100)
      | none => none
    else none

/-- C7 amended: the adaptive estimate follows the claim's formula, and it is
used as the starting Q exactly when it is defined and strictly greater than
the 1e-10 clamp floor; otherwise (non-positive peak, computation failure, or
an estimate clamped up to exactly 1e-10) the caller-supplied initial_Q is
used. -/
theorem claim_C7_amended (cls : String) (obs rx : List ℝ) (ws H callerQ : ℝ) :
    estimate_initial_Q cls obs rx ws H = estimateInitialQSpecC7 cls obs rx ws ∧
    chooseInitialQ cls obs rx ws H callerQ =
      (match estimateInitialQSpecC7 cls obs rx ws with
        | some q => if 1e-10 < q then q else callerQ
        | none => callerQ) := by
  have key : estimate_initial_Q cls obs rx ws H = estimateInitialQSpecC7 cls obs rx ws := by
    unfold estimate_initial_Q estimateInitialQSpecC7
    cases argmax? obs with
    | none => rfl
    | some i =>
      simp only
      rcases le_or_lt (obs.getD i 0) 0 with hle | hlt
      · rw [if_pos hle, if_neg (not_lt.mpr hle)]
      · rw [if_neg (not_le.mpr hlt), if_pos hlt]
        cases h : rx[i]? with
        | none => rfl
        | some xr =>
          simp only
          congr 1
          rw [npClip_comm _ _ _ (by norm_num : (1e-10:ℝ) ≤ 100)]
          congr 2
          ring
  refine ⟨key, ?_⟩
  unfold chooseInitialQ
  rw [key]

/-- C7 counterexample: with a single observation 1e-30 at receptor_x = 10,
the adaptive estimate is computable and positive - it clamps up to exactly
1e-10 - yet invert starts from the caller-supplied initial_Q (0.01) because
the selection condition requires the estimate to strictly exceed 1e-10. -/
theorem claim_C7_counterexample :
    estimate_initial_Q "D" [1e-30] [10] 3 5 = some 1e-10 ∧
    (0:ℝ) < 1e-10 ∧
    chooseInitialQ "D" [1e-30] [10] 3 5 0.01 = 0.01 ∧
    (0.01 : ℝ) ≠ 1e-10 := by
  have hD : pgCoeffOf "D" = ⟨0.08, 0.894, 0.06, 0.894⟩ := rfl
  have key : estimate_initial_Q "D" [1e-30] [10] 3 5 = some 1e-10 := by
    have hr1 : ((10:ℝ) / 1000) ^ (0.894:ℝ) ≤ 1 :=
      Real.rpow_le_one (by norm_num) (by norm_num) (by norm_num)
    have hr0 : (0:ℝ) < ((10:ℝ) / 1000) ^ (0.894:ℝ) :=
      Real.rpow_pos_of_pos (by norm_num) _
    have hpi4 : Real.pi ≤ 4 := Real.pi_le_four
    have hpi0 : (0:ℝ) < Real.pi := Real.pi_pos
    have hraw : (1e-30:ℝ) * 2 * Real.pi * 3 *
        (0.08 * ((10:ℝ) / 1000) ^ (0.894:ℝ) * 1000) *
        (0.06 * ((10:ℝ) / 1000) ^ (0.894:ℝ) * 1000) ≤ 1e-10 := by
      nlinarith [mul_le_one₀ hr1 hr0.le hr1]
    unfold estimate_initial_Q
    simp only [argmax?, argmaxAux, List.getD_cons_zero, List.getElem?_cons_zero]
    rw [if_neg (by norm_num : ¬((1e-30:ℝ) ≤ 0))]
    rw [hD]
    simp only [max_self]
    rw [show max (3:ℝ) 0.5 = 3 from max_eq_left (by norm_num)]
    unfold npClip
    rw [min_eq_left (hraw.trans (by norm_num)), max_eq_left hraw]
  refine ⟨key, by norm_num, ?_, by norm_num⟩
  unfold chooseInitialQ
  rw [key]
  simp only
  rw [if_neg (lt_irrefl (1e-10:ℝ))]

lemma rhe_bounds (x : ℝ) : x - 1 / 2 ≤ (rhe x : ℝ) ∧ (rhe x : ℝ) ≤ x + 1 / 2 := by
  unfold rhe
  split_ifs with ht he
  · have hx : x - (⌊x⌋ : ℝ) = 1 / 2 := by rw [Int.self_sub_floor, ht]
    constructor <;> linarith
  · have hx : x - (⌊x⌋ : ℝ) = 1 / 2 := by rw [Int.self_sub_floor, ht]
    push_cast
    constructor <;> linarith
  · have h := abs_sub_round x
    rw [abs_le] at h
    constructor <;> linarith [h.1, h.2]

lemma rhe_mono {a b : ℝ} (h : a ≤ b) : rhe a ≤ rhe b := by
  by_contra hc
  push_neg at hc
  have hZ : rhe b + 1 ≤ rhe a := hc
  have hZ' : (rhe b : ℝ) + 1 ≤ (rhe a : ℝ) := by exact_mod_cast hZ
  obtain ⟨ha1, ha2⟩ := rhe_bounds a
  obtain ⟨hb1, hb2⟩ := rhe_bounds b
  have hab : a = b := le_antisymm h (by linarith)
  rw [hab] at hc
  exact lt_irrefl _ hc

lemma roundTo_mono (n : ℕ) {a b : ℝ} (h : a ≤ b) : roundTo n a ≤ roundTo n b := by
  unfold roundTo
  have hp : (0 : ℝ) < 10 ^ n := by positivity
  have : (rhe (a * 10 ^ n) : ℝ) ≤ (rhe (b * 10 ^ n) : ℝ) := by
    exact_mod_cast rhe_mono (mul_le_mul_of_nonneg_right h hp.le)
  exact div_le_div_of_nonneg_right this hp.le

lemma roundTo_le_add_one (n : ℕ) (x : ℝ) : roundTo n x ≤ x + 1 := by
  unfold roundTo
  have hp : (0 : ℝ) < 10 ^ n := by positivity
  have hp1 : (1 : ℝ) ≤ 10 ^ n := by
    have h10 := pow_le_pow_left (by norm_num : (0:ℝ) ≤ 1) (by norm_num : (1:ℝ) ≤ 10) n
    simpa using h10
  rw [div_le_iff₀ hp]
  have := (rhe_bounds (x * 10 ^ n)).2
  nlinarith

lemma sub_one_le_roundTo (n : ℕ) (x : ℝ) : x - 1 ≤ roundTo n x := by
  unfold roundTo
  have hp : (0 : ℝ) < 10 ^ n := by positivity
  have hp1 : (1 : ℝ) ≤ 10 ^ n := by
    have h10 := pow_le_pow_left (by norm_num : (0:ℝ) ≤ 1) (by norm_num : (1:ℝ) ≤ 10) n
    simpa using h10
  rw [le_div_iff₀ hp]
  have := (rhe_bounds (x * 10 ^ n)).1
  nlinarith

lemma npClip_mono {a b : ℝ} (lo hi : ℝ) (h : a ≤ b) :
    npClip a lo hi ≤ npClip b lo hi :=
  max_le_max le_rfl (min_le_min h le_rfl)

lemma ciFromHessian_fst_le_snd (lq h : ℝ) :
    (ciFromHessian lq h).1 ≤ (ciFromHessian lq h).2 := by
  unfold ciFromHessian
  split_ifs with hh
  · simp only
    have hse : 0 ≤ 1.96 * min (1 / Real.sqrt h) 50 := by
      have h0 : (0:ℝ) ≤ 1 / Real.sqrt h := by positivity
      have := le_min h0 (by norm_num : (0:ℝ) ≤ 50)
      nlinarith
    refine mul_le_mul_of_nonneg_right (Real.exp_le_exp.mpr ?_) (by norm_num)
    exact npClip_mono _ _ (by linarith)
  · simp only
    nlinarith [Real.exp_pos lq]

lemma ciFromHessian_around_estimate (lq h : ℝ) (h1 : -50 ≤ lq) (h2 : lq ≤ 50) :
    (ciFromHessian lq h).1 ≤ Real.exp lq * 3600 ∧
    Real.exp lq * 3600 ≤ (ciFromHessian lq h).2 := by
  unfold ciFromHessian
  split_ifs with hh
  · simp only
    have hse : 0 ≤ 1.96 * min (1 / Real.sqrt h) 50 := by
      have h0 : (0:ℝ) ≤ 1 / Real.sqrt h := by positivity
      have := le_min h0 (by norm_num : (0:ℝ) ≤ 50)
      nlinarith
    constructor
    · refine mul_le_mul_of_nonneg_right (Real.exp_le_exp.mpr ?_) (by norm_num)
      exact max_le h1 (le_trans (min_le_left _ _) (by linarith))
    · refine mul_le_mul_of_nonneg_right (Real.exp_le_exp.mpr ?_) (by norm_num)
      exact le_trans (le_min (by linarith) h2) (le_max_right _ _)
  · simp only
    constructor <;> nlinarith [Real.exp_pos lq]

/-- C2 amended: confidence_interval[0] ≤ estimated_Q_kg_hr ≤
confidence_interval[1] holds for every assembled InversionResult whose final
optimized log_Q lies in the CI clipping range [-50, 50] (the fallback ±30%
branch needs no side condition); outside that range the clipped Wald bounds
can exclude the unclipped point estimate. -/
theorem claim_C2_amended (p : PreparedData) (r : LoopResult) (trueQ : Option ℝ)
    (h1 : -50 ≤ r.st.model.log_Q) (h2 : r.st.model.log_Q ≤ 50) :
    (assembleResult p r trueQ).confidence_interval.1 ≤
      (assembleResult p r trueQ).estimated_Q_kg_hr ∧
    (assembleResult p r trueQ).estimated_Q_kg_hr ≤
      (assembleResult p r trueQ).confidence_interval.2 := by
  unfold assembleResult confidenceInterval GaussianPlumeModel.Q_kg_hr
    GaussianPlumeModel.Q
  simp only
  obtain ⟨hl, hr⟩ :=
    ciFromHessian_around_estimate r.st.model.log_Q (hessianLogQ p r.st.model) h1 h2
  exact ⟨roundTo_mono 4 hl, roundTo_mono 4 hr⟩

/-- Witness for the amended C2 at a concrete post-loop state with log_Q = 0. -/
theorem claim_C2_amended_witness :
    (-50 : ℝ) ≤ 0 ∧ (0 : ℝ) ≤ 50 ∧
    ((assembleResult ⟨[0], [2000], [0], [0], 3, 1⟩
        ⟨⟨⟨0, 0, 0, 5, "D"⟩, ⟨0, 0⟩, ⟨0, 0⟩, ⟨0, 0⟩, 0, 0.1, none, 0, 0⟩,
          none, 0, false, 1⟩ none).confidence_interval.1 ≤
      (assembleResult ⟨[0], [2000], [0], [0], 3, 1⟩
        ⟨⟨⟨0, 0, 0, 5, "D"⟩, ⟨0, 0⟩, ⟨0, 0⟩, ⟨0, 0⟩, 0, 0.1, none, 0, 0⟩,
          none, 0, false, 1⟩ none).estimated_Q_kg_hr ∧
      (assembleResult ⟨[0], [2000], [0], [0], 3, 1⟩
        ⟨⟨⟨0, 0, 0, 5, "D"⟩, ⟨0, 0⟩, ⟨0, 0⟩, ⟨0, 0⟩, 0, 0.1, none, 0, 0⟩,
          none, 0, false, 1⟩ none).estimated_Q_kg_hr ≤
      (assembleResult ⟨[0], [2000], [0], [0], 3, 1⟩
        ⟨⟨⟨0, 0, 0, 5, "D"⟩, ⟨0, 0⟩, ⟨0, 0⟩, ⟨0, 0⟩, 0, 0.1, none, 0, 0⟩,
          none, 0, false, 1⟩ none).confidence_interval.2) :=
  ⟨by norm_num, by norm_num,
    claim_C2_amended ⟨[0], [2000], [0], [0], 3, 1⟩
      ⟨⟨⟨0, 0, 0, 5, "D"⟩, ⟨0, 0⟩, ⟨0, 0⟩, ⟨0, 0⟩, 0, 0.1, none, 0, 0⟩,
        none, 0, false, 1⟩ none (by norm_num) (by norm_num)⟩

/-- The prev_loss value held when iteration i begins: none (the initial
float inf) at i = 0, otherwise the previous iteration's loss. -/
def prevOf (p : PreparedData) (s0 : OptimState) : ℕ → Option ℝ
  | 0 => none
  | j + 1 => some (lossSeq p s0 j)

/-- The final_loss value held when iteration i begins (0.0 before the first
iteration, as initialised on line 123). -/
def finalAt (p : PreparedData) (s0 : OptimState) : ℕ → ℝ
  | 0 => 0
  | j + 1 => lossSeq p s0 j

/-- The loop state at the start of iteration i of a run that has not
converged before i. -/
def runStateAt (p : PreparedData) (s0 : OptimState) (i : ℕ) : LoopResult :=
  ⟨optimSeq p s0 i, prevOf p s0 i, finalAt p s0 i, false, i⟩

/-- Iteration i passes the convergence check of lines 139-142. -/
def triggerAt (cfg : InverterConfig) (p : PreparedData) (s0 : OptimState)
    (i : ℕ) : Prop :=
  cfg.min_iterations ≤ i ∧
    relOk (prevOf p s0 i) (lossSeq p s0 i) cfg.convergence_tol = true

/-- The convergence criterion exactly as the amended claim words it: at an
iteration i that has a previous loss, the relative change
|prev - cur| / (|prev| + 1e-30) falls below the tolerance, checked only from
min_iterations on. -/
def triggerSpecC4 (cfg : InverterConfig) (p : PreparedData) (s0 : OptimState)
    (i : ℕ) : Prop :=
  cfg.min_iterations ≤ i ∧ 1 ≤ i ∧
    |lossSeq p s0 (i - 1) - lossSeq p s0 i| / (|lossSeq p s0 (i - 1)| + 1e-30) <
      cfg.convergence_tol

lemma triggerAt_iff_spec (cfg : InverterConfig) (p : PreparedData)
    (s0 : OptimState) (i : ℕ) :
    triggerAt cfg p s0 i ↔ triggerSpecC4 cfg p s0 i := by
  unfold triggerAt triggerSpecC4
  cases i with
  | zero => simp [relOk, prevOf]
  | succ j => simp [relOk, prevOf]

lemma loopGo_no_trigger (cfg : InverterConfig) (p : PreparedData)
    (s0 : OptimState) :
    ∀ (fuel i : ℕ),
      (∀ j, i ≤ j → j < i + fuel → ¬ triggerAt cfg p s0 j) →
      loopGo cfg p fuel i (runStateAt p s0 i) = runStateAt p s0 (i + fuel) := by
  intro fuel
  induction fuel with
  | zero => intro i _; simp [loopGo]
  | succ n ih =>
    intro i h
    simp only [loopGo, runStateAt]
    rw [show lossOf p (optimSeq p s0 i).model = lossSeq p s0 i from rfl]
    have hng := h i le_rfl (by omega)
    unfold triggerAt at hng
    rw [if_neg hng]
    have hrec : loopGo cfg p n (i + 1) (runStateAt p s0 (i + 1)) =
        runStateAt p s0 (i + 1 + n) :=
      ih (i + 1) (fun j h1 h2 => h j (by omega) (by omega))
    have harith : i + 1 + n = i + (n + 1) := by omega
    rw [harith] at hrec
    exact hrec

lemma loopGo_first_trigger (cfg : InverterConfig) (p : PreparedData)
    (s0 : OptimState) :
    ∀ (fuel i j : ℕ), i ≤ j → j < i + fuel →
      triggerAt cfg p s0 j →
      (∀ k, i ≤ k → k < j → ¬ triggerAt cfg p s0 k) →
      loopGo cfg p fuel i (runStateAt p s0 i) =
        ⟨optimSeq p s0 (j + 1), prevOf p s0 j, lossSeq p s0 j, true, j + 1⟩ := by
  intro fuel
  induction fuel with
  | zero => intro i j hij hlt _ _; exact absurd hlt (by omega)
  | succ n ih =>
    intro i j hij hlt htrig hmin
    simp only [loopGo, runStateAt]
    rw [show lossOf p (optimSeq p s0 i).model = lossSeq p s0 i from rfl]
    rcases eq_or_lt_of_le hij with hji | hji
    · subst hji
      rw [if_pos ⟨htrig.1, htrig.2⟩]
      rfl
    · have hng := hmin i le_rfl hji
      unfold triggerAt at hng
      rw [if_neg hng]
      exact ih (i + 1) j (by omega) (by omega) htrig
        (fun k h1 h2 => hmin k (by omega) h2)

lemma invert_ok_elim (cfg : InverterConfig) (d : InversionInput)
    (r : InversionResult) (hok : invert cfg d = .ok r) :
    cfg.max_iterations ≠ 0 ∧
    r = assembleResult (prepOf d)
      (loopGo cfg (prepOf d) cfg.max_iterations 0 ⟨s0Of cfg d, none, 0, false, 0⟩)
      d.true_Q_kg_hr := by
  unfold invert at hok
  split at hok
  · exact Except.noConfusion hok
  · split at hok
    · exact Except.noConfusion hok
    · split at hok
      · rename_i h0 hb
        injection hok with h
        exact ⟨h0, h.symm⟩
      · exact Except.noConfusion hok

/-- C4 amended: invert declares converged exactly when some iteration i with
a previous loss and i at least min_iterations has relative loss change
|prev - cur| / (|prev| + 1e-30) below the tolerance (the code guards the
denominator with 1e-30, which the original claim omits); at the first such i
it stops with n_iterations = i + 1 and final_loss equal to that iteration's
loss (rounded to 12 digits as the result record does); if max_iterations is
exhausted, converged is false, n_iterations = max_iterations and final_loss
is the last iteration's loss. -/
theorem claim_C4_amended (cfg : InverterConfig) (d : InversionInput)
    (r : InversionResult) (hok : invert cfg d = .ok r) :
    (r.converged = true ↔
      ∃ i, i < cfg.max_iterations ∧ triggerSpecC4 cfg (prepOf d) (s0Of cfg d) i) ∧
    (r.converged = true →
      ∃ i, i < cfg.max_iterations ∧ triggerSpecC4 cfg (prepOf d) (s0Of cfg d) i ∧
        (∀ j, j < i → ¬ triggerSpecC4 cfg (prepOf d) (s0Of cfg d) j) ∧
        r.n_iterations = i + 1 ∧
        r.final_loss = roundTo 12 (lossSeq (prepOf d) (s0Of cfg d) i)) ∧
    (r.converged = false →
      r.n_iterations = cfg.max_iterations ∧
      r.final_loss =
        roundTo 12 (lossSeq (prepOf d) (s0Of cfg d) (cfg.max_iterations - 1))) := by
  obtain ⟨hN0, hre⟩ := invert_ok_elim cfg d r hok
  classical
  by_cases hex : ∃ i, i < cfg.max_iterations ∧ triggerAt cfg (prepOf d) (s0Of cfg d) i
  · set j := Nat.find hex with hjdef
    obtain ⟨hjN, hjt⟩ := Nat.find_spec hex
    have hjmin : ∀ k, k < j → ¬ triggerAt cfg (prepOf d) (s0Of cfg d) k :=
      fun k hk htk => Nat.find_min hex hk ⟨hk.trans hjN, htk⟩
    have hloop := loopGo_first_trigger cfg (prepOf d) (s0Of cfg d)
      cfg.max_iterations 0 j (Nat.zero_le _) (by omega) hjt
      (fun k _ hkj => hjmin k hkj)
    rw [hre, show (⟨s0Of cfg d, none, 0, false, 0⟩ : LoopResult) =
      runStateAt (prepOf d) (s0Of cfg d) 0 from rfl, hloop]
    refine ⟨⟨fun _ => ⟨j, hjN, (triggerAt_iff_spec _ _ _ _).mp hjt⟩, fun _ => rfl⟩,
      fun _ => ⟨j, hjN, (triggerAt_iff_spec _ _ _ _).mp hjt,
        fun k hk hs => hjmin k hk ((triggerAt_iff_spec _ _ _ _).mpr hs), rfl, rfl⟩,
      fun hcf => ?_⟩
    simp [assembleResult] at hcf
  · have hloop := loopGo_no_trigger cfg (prepOf d) (s0Of cfg d) cfg.max_iterations 0
      (fun k _ hk htk => hex ⟨k, by omega, htk⟩)
    rw [zero_add] at hloop
    rw [hre, show (⟨s0Of cfg d, none, 0, false, 0⟩ : LoopResult) =
      runStateAt (prepOf d) (s0Of cfg d) 0 from rfl, hloop]
    obtain ⟨Nm, hNm⟩ : ∃ m, cfg.max_iterations = m + 1 :=
      ⟨cfg.max_iterations - 1, by omega⟩
    refine ⟨⟨fun hct => ?_, fun hs => ?_⟩, fun hct => ?_, fun _ => ⟨rfl, ?_⟩⟩
    · simp [assembleResult, runStateAt] at hct
    · obtain ⟨i, hiN, hs'⟩ := hs
      exact False.elim (hex ⟨i, hiN, (triggerAt_iff_spec _ _ _ _).mpr hs'⟩)
    · simp [assembleResult, runStateAt] at hct
    · rw [hNm]
      simp only [Nat.add_sub_cancel]
      rfl

lemma forwardL_length (f : ℝ → ℝ → ℝ → ℝ) :
    ∀ xs ys zs : List ℝ,
      (forwardL f xs ys zs).length = min xs.length (min ys.length zs.length) := by
  intro xs
  induction xs with
  | nil => intro ys zs; simp [forwardL]
  | cons a as ih =>
    intro ys zs
    cases ys with
    | nil => simp [forwardL]
    | cons b bs =>
      cases zs with
      | nil => simp [forwardL]
      | cons c cs =>
        simp only [forwardL, List.length_cons, ih bs cs]
        omega

lemma assembleResult_ci_ordered (p : PreparedData) (r : LoopResult)
    (tq : Option ℝ) :
    (assembleResult p r tq).confidence_interval.1 ≤
      (assembleResult p r tq).confidence_interval.2 := by
  unfold assembleResult confidenceInterval
  simp only
  exact roundTo_mono 4 (ciFromHessian_fst_le_snd _ _)

lemma invert_returns_ok (cfg : InverterConfig) (d : InversionInput)
    (hmi : cfg.max_iterations ≠ 0) (hne : d.observed_concentrations ≠ [])
    (h1 : d.observed_concentrations.length = d.receptor_x.length)
    (h2 : d.receptor_x.length = d.receptor_y.length)
    (h3 : d.receptor_y.length = d.receptor_z.length) :
    invert cfg d = .ok (assembleResult (prepOf d)
      (loopGo cfg (prepOf d) cfg.max_iterations 0 ⟨s0Of cfg d, none, 0, false, 0⟩)
      d.true_Q_kg_hr) := by
  have hb : broadcastable (predList (prepOf d) (model0Of cfg d)).length
      (prepOf d).obsS.length := by
    left
    unfold predList GaussianPlumeModel.forward prepOf
    simp only [forwardL_length, List.length_map]
    omega
  unfold invert
  cases hobs : d.observed_concentrations with
  | nil => exact absurd hobs hne
  | cons a as =>
    simp only [List.max?]
    rw [if_neg hmi, if_pos hb]

/-- C5 amended: for every configuration with max_iterations at least 1 and
every well-formed input (equal-length, nonempty observation and receptor
arrays), invert raises no exception: it returns a complete InversionResult
whose confidence interval is well ordered.  (The zero-max observation scale
fallback and the adaptive-initial-Q fallback are part of the embedded
computation.)  With max_iterations = 0 the Python function instead dies on
the unbound loop variable i, which is why the claim needs the amendment. -/
theorem claim_C5_amended (cfg : InverterConfig) (d : InversionInput)
    (hmi : cfg.max_iterations ≠ 0) (hne : d.observed_concentrations ≠ [])
    (h1 : d.observed_concentrations.length = d.receptor_x.length)
    (h2 : d.receptor_x.length = d.receptor_y.length)
    (h3 : d.receptor_y.length = d.receptor_z.length) :
    ∃ r, invert cfg d = .ok r ∧
      r.confidence_interval.1 ≤ r.confidence_interval.2 :=
  ⟨_, invert_returns_ok cfg d hmi hne h1 h2 h3, assembleResult_ci_ordered _ _ _⟩

/-- Witness for the amended C5 at a concrete configuration and input. -/
theorem claim_C5_amended_witness :
    ∃ r, invert ⟨0.1, 1e-6, 1, 300, "D"⟩ ⟨[0], [2000], [0], [0], 3, 0.01, 5, none⟩ =
        .ok r ∧ r.confidence_interval.1 ≤ r.confidence_interval.2 :=
  claim_C5_amended ⟨0.1, 1e-6, 1, 300, "D"⟩ ⟨[0], [2000], [0], [0], 3, 0.01, 5, none⟩
    (by decide) (by simp) rfl rfl rfl

/-- C5 counterexample: with max_iterations = 0 and a perfectly well-formed
input, the Python invert raises UnboundLocalError at n_iterations = i + 1,
because range(0) never assigns the loop variable; the embedding returns the
corresponding error. -/
theorem claim_C5_counterexample :
    ∃ e, invert ⟨0.1, 1e-6, 0, 300, "D"⟩ ⟨[0], [2000], [0], [0], 3, 0.01, 5, none⟩ =
      .error e :=
  ⟨"UnboundLocalError: i", rfl⟩

/-- C9: invert does not fail fast on mismatched array lengths.  With three
observations and one receptor the predicted tensor (length 1) broadcasts
against the observed tensor (length 3) inside MSELoss, and invert silently
returns an InversionResult instead of raising a precondition error. -/
theorem claim_C9_no_raise_on_broadcastable_mismatch :
    ∃ r, invert ⟨0.1, 1e-6, 1, 300, "D"⟩
      ⟨[0, 0, 0], [2000], [0], [0], 3, 0.01, 5, none⟩ = .ok r :=
  ⟨_, rfl⟩

lemma sigmoid_pos (x : ℝ) : 0 < sigmoid x := by
  unfold sigmoid
  positivity

lemma sigmoid_le_one (x : ℝ) : sigmoid x ≤ 1 := by
  unfold sigmoid
  rw [div_le_one (by positivity)]
  nlinarith [Real.exp_pos (-x)]

lemma concAt_pos (m : GaussianPlumeModel) (ws rx ry rz : ℝ) :
    0 < concAt m ws rx ry rz := by
  unfold concAt
  obtain ⟨ha, hb, hc, hd⟩ := pgCoeffOf_pos m.stability_class
  have hu : (0:ℝ) < max ws 0.5 := lt_of_lt_of_le (by norm_num) (le_max_right _ _)
  have hsy := sigmaPL_pos (pgCoeffOf m.stability_class).a
    (pgCoeffOf m.stability_class).b |(rx - m.src_x) / 1000| ha
  have hsz := sigmaPL_pos (pgCoeffOf m.stability_class).c
    (pgCoeffOf m.stability_class).d |(rx - m.src_x) / 1000| hc
  have h1 : 0 < Real.exp m.log_Q := Real.exp_pos _
  have h2 := Real.pi_pos
  have h3 := Real.exp_pos (-(ry - m.src_y) ^ 2 /
    (2 * (m.sigma_y |(rx - m.src_x) / 1000|) ^ 2))
  have h4 := Real.exp_pos (-(rz - m.H) ^ 2 /
    (2 * (m.sigma_z |(rx - m.src_x) / 1000|) ^ 2))
  have h5 := Real.exp_pos (-(rz + m.H) ^ 2 /
    (2 * (m.sigma_z |(rx - m.src_x) / 1000|) ^ 2))
  have h6 := sigmoid_pos ((rx - m.src_x) * 10)
  unfold GaussianPlumeModel.sigma_y GaussianPlumeModel.sigma_z at *
  unfold GaussianPlumeModel.Q
  positivity

/-- Q = exp(log_Q) scales the concentration linearly: factor it out. -/
lemma conc_factor (lq sx sy H : ℝ) (cls : String) (ws x y z : ℝ) :
    concAt ⟨lq, sx, sy, H, cls⟩ ws x y z =
      Real.exp lq * concAt ⟨0, sx, sy, H, cls⟩ ws x y z := by
  unfold concAt GaussianPlumeModel.Q
  simp only [Real.exp_zero]
  unfold GaussianPlumeModel.sigma_y GaussianPlumeModel.sigma_z
  simp only
  ring

lemma exp_ge_two_pow (n : ℕ) : (2:ℝ) ^ n ≤ Real.exp n := by
  have h2 : (2:ℝ) ≤ Real.exp 1 := by
    have := Real.add_one_le_exp (1:ℝ)
    linarith
  calc (2:ℝ) ^ n ≤ (Real.exp 1) ^ n :=
        pow_le_pow_left (by norm_num) h2 n
    _ = Real.exp n := by rw [← Real.exp_nat_mul, mul_one]

/-- The single concrete invert call used by the counterexamples: one all-zero
observation at receptor (2000, 0, 0), wind 3 m/s, source height 5 m, caller
initial Q = e^60 kg/s. -/
def d0run : InversionInput := ⟨[0], [2000], [0], [0], 3, Real.exp 60, 5, none⟩

/-- Prepared data of d0run (scale 1, observations unchanged). -/
def p0run : PreparedData := ⟨[0], [2000], [0], [0], 3, 1⟩

/-- The model at the start of that run: log_Q = log(e^60) = 60. -/
def m60 : GaussianPlumeModel := ⟨60, 0, 0, 5, "D"⟩

/-- The optimizer state at the start of that run (learning rate 0.1). -/
def s0run : OptimState := ⟨m60, ⟨0, 0⟩, ⟨0, 0⟩, ⟨0, 0⟩, 0, 0.1, none, 0, 0⟩

/-- The initial prediction at the single receptor. -/
def c0run : ℝ := concAt m60 3 2000 0 0

/-- The gradient of the loss with respect to src_x at the initial state
(its value is never needed, only that its Adam step has size below lr). -/
def gX0 : ℝ := gradOf p0run m60 (dpredX p0run m60)

lemma prep_d0run : prepOf d0run = p0run := by
  have hscale : obsScaleOf d0run = 1 := by
    unfold obsScaleOf d0run
    simp only [List.max?]
    norm_num
  unfold prepOf p0run
  rw [hscale]
  unfold d0run
  norm_num

lemma model0_d0run (cfg : InverterConfig) (hcls : cfg.stability_class = "D") :
    model0Of cfg d0run = m60 := by
  unfold model0Of d0run chooseInitialQ estimate_initial_Q
  simp only [argmax?, argmaxAux, List.getD_cons_zero, hcls]
  rw [if_pos le_rfl]
  unfold GaussianPlumeModel.init m60
  have hmax : max (Real.exp 60) 1e-8 = Real.exp 60 :=
    max_eq_left (le_trans (by norm_num) (Real.one_le_exp (by norm_num)))
  rw [hmax, Real.log_exp]

lemma s0_d0run (cfg : InverterConfig) (hcls : cfg.stability_class = "D")
    (hlr : cfg.learning_rate = 0.1) : s0Of cfg d0run = s0run := by
  unfold s0Of s0run
  rw [model0_d0run cfg hcls, hlr]

/-- One Adam update from fresh state at step count 1 subtracts
lr·g/(|g| + eps). -/
lemma adamDelta_t1 (lr g : ℝ) :
    (adamDelta lr g ⟨0, 0⟩ 1).2 = lr * g / (|g| + 1e-8) := by
  unfold adamDelta
  simp only [pow_one]
  have h1 : Real.sqrt (0.999 * 0 + 0.001 * g ^ 2) = Real.sqrt 0.001 * |g| := by
    rw [show (0.999 * 0 + 0.001 * g ^ 2 : ℝ) = 0.001 * g ^ 2 by ring,
      Real.sqrt_mul (by norm_num), Real.sqrt_sq_eq_abs]
  rw [h1]
  have hs : Real.sqrt (1 - 0.999) = Real.sqrt 0.001 := by norm_num
  rw [hs]
  have hsp : (0:ℝ) < Real.sqrt 0.001 := Real.sqrt_pos.mpr (by norm_num)
  rw [show Real.sqrt 0.001 * |g| / Real.sqrt 0.001 = |g| by
    field_simp]
  rw [show lr / (1 - 0.9) * (0.9 * 0 + 0.1 * g) = lr * g by ring_nf]

lemma exp_neg_20000_le : Real.exp (-20000) ≤ 0.001 := by
  have h1 : (1024:ℝ) ≤ Real.exp 10 := by
    have := exp_ge_two_pow 10
    norm_num at this
    exact this
  have h2 : Real.exp (-20000) ≤ Real.exp (-10) := Real.exp_le_exp.mpr (by norm_num)
  have h3 : Real.exp (-10) = (Real.exp 10)⁻¹ := Real.exp_neg _
  have h5 : (Real.exp 10)⁻¹ ≤ (1024:ℝ)⁻¹ := inv_le_inv_of_le (by norm_num) h1
  calc Real.exp (-20000) ≤ (Real.exp 10)⁻¹ := h3 ▸ h2
    _ ≤ (1024:ℝ)⁻¹ := h5
    _ ≤ 0.001 := by norm_num

lemma sigmoid_20000_ge : Real.exp (-0.001) ≤ sigmoid 20000 := by
  unfold sigmoid
  have he : Real.exp (-(20000:ℝ)) ≤ 0.001 := by
    have := exp_neg_20000_le
    norm_num at this ⊢
    exact this
  have h2 : (1.001:ℝ) ≤ Real.exp 0.001 := by
    have := Real.add_one_le_exp (0.001:ℝ)
    linarith
  rw [Real.exp_neg, one_div]
  apply inv_le_inv_of_le (by positivity)
  linarith

/-- Closed form of the forward value at the counterexample receptor for a
class-D model at height 5 and source offset (sx, 0): the lateral term is 1
and the two vertical exponentials coincide. -/
lemma concAt_D_eval (lq sx : ℝ) (hdx : 0.01 ≤ (2000 - sx) / 1000) :
    concAt ⟨lq, sx, 0, 5, "D"⟩ 3 2000 0 0 =
      Real.exp lq / (2 * Real.pi * 3 *
          (80 * ((2000 - sx) / 1000) ^ (0.894:ℝ)) *
          (60 * ((2000 - sx) / 1000) ^ (0.894:ℝ)))
        * (2 * Real.exp (-25 / (2 * (60 * ((2000 - sx) / 1000) ^ (0.894:ℝ)) ^ 2)))
        * sigmoid ((2000 - sx) * 10) := by
  unfold concAt GaussianPlumeModel.Q GaussianPlumeModel.sigma_y
    GaussianPlumeModel.sigma_z
  simp only
  have h0 : (0:ℝ) ≤ (2000 - sx) / 1000 := le_trans (by norm_num) hdx
  rw [abs_of_nonneg h0, max_eq_left hdx,
    show pgCoeffOf "D" = ⟨0.08, 0.894, 0.06, 0.894⟩ from rfl]
  simp only
  rw [show ((0:ℝ) - 0) = 0 by norm_num]
  rw [show (3:ℝ) ⊔ 0.5 = 3 from max_eq_left (by norm_num)]
  norm_num
  left
  rw [show (3 / 50 * ((2000 - sx) / 1000) ^ ((447:ℝ) / 500) * 1000 : ℝ) =
    60 * ((2000 - sx) / 1000) ^ ((447:ℝ) / 500) by ring]
  ring

lemma sigmoid_ge_half (x : ℝ) (hx : 0 ≤ x) : (1/2:ℝ) ≤ sigmoid x := by
  unfold sigmoid
  have h1 : Real.exp (-x) ≤ 1 := Real.exp_le_one_iff.mpr (by linarith)
  have h2 : (0:ℝ) < 1 + Real.exp (-x) := by positivity
  rw [le_div_iff₀ h2]
  linarith

lemma k0_ge : (1e-6:ℝ) ≤ concAt ⟨0, 0, 0, 5, "D"⟩ 3 2000 0 0 := by
  rw [concAt_D_eval 0 0 (by norm_num)]
  rw [show ((2000:ℝ) - 0) / 1000 = 2 by norm_num]
  set t := (2:ℝ) ^ (0.894:ℝ) with ht
  have ht0 : (0:ℝ) < t := Real.rpow_pos_of_pos (by norm_num) _
  have ht1 : (1:ℝ) ≤ t := Real.one_le_rpow (by norm_num) (by norm_num)
  have ht2 : t ≤ 2 := by
    calc t ≤ (2:ℝ) ^ (1:ℝ) :=
      Real.rpow_le_rpow_of_exponent_le (by norm_num) (by norm_num)
    _ = 2 := Real.rpow_one 2
  have hpi4 := Real.pi_le_four
  have hpi0 := Real.pi_pos
  have hden : (0:ℝ) < 2 * Real.pi * 3 * (80 * t) * (60 * t) := by
    nlinarith [mul_pos hpi0 (mul_pos ht0 ht0)]
  have hP : (2e-6:ℝ) ≤ Real.exp 0 / (2 * Real.pi * 3 * (80 * t) * (60 * t)) := by
    rw [Real.exp_zero, le_div_iff₀ hden]
    have htt : t * t ≤ 4 := by nlinarith
    have hptt : Real.pi * (t * t) ≤ 16 :=
      le_trans (mul_le_mul hpi4 le_rfl (by positivity) (by norm_num))
        (by nlinarith)
    nlinarith
  have hV : (1:ℝ) ≤ 2 * Real.exp (-25 / (2 * (60 * t) ^ 2)) := by
    have h36 : (3600:ℝ) ≤ (60 * t) ^ 2 := by nlinarith
    have harg : (-0.0035:ℝ) ≤ -25 / (2 * (60 * t) ^ 2) := by
      rw [show (-25 / (2 * (60 * t) ^ 2) : ℝ) = -(25 / (2 * (60 * t) ^ 2)) by ring]
      rw [neg_le_neg_iff, div_le_iff₀ (by nlinarith)]
      nlinarith
    have := Real.exp_le_exp.mpr harg
    have h1 := Real.add_one_le_exp (-0.0035:ℝ)
    nlinarith
  have hS : (1/2:ℝ) ≤ sigmoid ((2000 - 0) * 10) :=
    sigmoid_ge_half _ (by norm_num)
  have hVnn : (0:ℝ) ≤ 2 * Real.exp (-25 / (2 * (60 * t) ^ 2)) := by positivity
  have hPnn : (0:ℝ) ≤ Real.exp 0 / (2 * Real.pi * 3 * (80 * t) * (60 * t)) :=
    le_trans (by norm_num) hP
  calc (1e-6:ℝ) = 2e-6 * 1 * (1/2) := by norm_num
    _ ≤ Real.exp 0 / (2 * Real.pi * 3 * (80 * t) * (60 * t))
        * (2 * Real.exp (-25 / (2 * (60 * t) ^ 2)))
        * sigmoid ((2000 - 0) * 10) := by
      apply mul_le_mul _ hS (by norm_num)
        (mul_nonneg hPnn hVnn)
      exact mul_le_mul hP hV (by norm_num) hPnn

set_option maxHeartbeats 1000000 in
/-- Moving the source offset by at most 0.1 m changes the unit-Q forward
value at the counterexample receptor by a factor of at most exp(0.005). -/
lemma kD_upper (sx : ℝ) (hs : |sx| ≤ 0.1) :
    concAt ⟨0, sx, 0, 5, "D"⟩ 3 2000 0 0 ≤
      Real.exp 0.005 * concAt ⟨0, 0, 0, 5, "D"⟩ 3 2000 0 0 := by
  have hsx1 : -0.1 ≤ sx := (abs_le.mp hs).1
  have hsx2 : sx ≤ 0.1 := (abs_le.mp hs).2
  have hdx : (0.01:ℝ) ≤ (2000 - sx) / 1000 := by
    rw [le_div_iff₀ (by norm_num : (0:ℝ) < 1000)]
    linarith
  rw [concAt_D_eval 0 sx hdx, concAt_D_eval 0 0 (by norm_num),
    show ((2000:ℝ) - 0) / 1000 = 2 by norm_num]
  have hw1 : (1.9999:ℝ) ≤ (2000 - sx) / 1000 := by
    rw [le_div_iff₀ (by norm_num : (0:ℝ) < 1000)]
    linarith
  set w := ((2000 - sx) / 1000 : ℝ) with hw
  set t1 := w ^ (0.894:ℝ) with ht1def
  set t0 := (2:ℝ) ^ (0.894:ℝ) with ht0def
  have hwpos : (0:ℝ) < w := lt_of_lt_of_le (by norm_num) hw1
  have ht1pos : (0:ℝ) < t1 := Real.rpow_pos_of_pos hwpos _
  have ht0pos : (0:ℝ) < t0 := Real.rpow_pos_of_pos (by norm_num) _
  have ht0ge1 : (1:ℝ) ≤ t0 := Real.one_le_rpow (by norm_num) (by norm_num)
  have hpi0 := Real.pi_pos
  have hkey : t0 ≤ t1 * Real.exp 0.0001 := by
    have h2w : (2:ℝ) ≤ w * Real.exp 0.00011 := by
      have he := Real.add_one_le_exp (0.00011:ℝ)
      nlinarith
    calc t0 ≤ (w * Real.exp 0.00011) ^ (0.894:ℝ) :=
        Real.rpow_le_rpow (by norm_num) h2w (by norm_num)
      _ = w ^ (0.894:ℝ) * (Real.exp 0.00011) ^ (0.894:ℝ) :=
        Real.mul_rpow hwpos.le (Real.exp_pos _).le
      _ = t1 * Real.exp (0.00011 * 0.894) := by rw [← Real.exp_mul]
      _ ≤ t1 * Real.exp 0.0001 := by
        have h := Real.exp_le_exp.mpr (show (0.00011 * 0.894:ℝ) ≤ 0.0001 by norm_num)
        nlinarith
  have hden1 : (0:ℝ) < 2 * Real.pi * 3 * (80 * t1) * (60 * t1) := by
    nlinarith [mul_pos hpi0 (mul_pos ht1pos ht1pos)]
  have hden0 : (0:ℝ) < 2 * Real.pi * 3 * (80 * t0) * (60 * t0) := by
    nlinarith [mul_pos hpi0 (mul_pos ht0pos ht0pos)]
  have hF1 : Real.exp 0 / (2 * Real.pi * 3 * (80 * t1) * (60 * t1)) ≤
      Real.exp 0.0002 * (Real.exp 0 / (2 * Real.pi * 3 * (80 * t0) * (60 * t0))) := by
    rw [Real.exp_zero, mul_one_div, div_le_div_iff hden1 hden0]
    have hsq : t0 * t0 ≤ Real.exp 0.0002 * (t1 * t1) := by
      have hmm := mul_le_mul hkey hkey ht0pos.le
        (mul_nonneg ht1pos.le (Real.exp_pos _).le)
      have he2 : Real.exp 0.0001 * Real.exp 0.0001 = Real.exp 0.0002 := by
        rw [← Real.exp_add]; norm_num
      nlinarith
    have := mul_le_mul_of_nonneg_left hsq
      (by positivity : (0:ℝ) ≤ 28800 * Real.pi)
    nlinarith
  have hF2 : 2 * Real.exp (-25 / (2 * (60 * t1) ^ 2)) ≤
      Real.exp 0.0035 * (2 * Real.exp (-25 / (2 * (60 * t0) ^ 2))) := by
    have hL : 2 * Real.exp (-25 / (2 * (60 * t1) ^ 2)) ≤ 2 := by
      have h1 : Real.exp (-25 / (2 * (60 * t1) ^ 2)) ≤ 1 := by
        apply Real.exp_le_one_iff.mpr
        rw [show (-25 / (2 * (60 * t1) ^ 2) : ℝ) = -(25 / (2 * (60 * t1) ^ 2)) by ring]
        have : (0:ℝ) ≤ 25 / (2 * (60 * t1) ^ 2) := by positivity
        linarith
      linarith
    have h36 : (3600:ℝ) ≤ (60 * t0) ^ 2 := by nlinarith
    have harg : (-0.0035:ℝ) ≤ -25 / (2 * (60 * t0) ^ 2) := by
      rw [show (-25 / (2 * (60 * t0) ^ 2) : ℝ) = -(25 / (2 * (60 * t0) ^ 2)) by ring]
      rw [neg_le_neg_iff, div_le_iff₀ (by nlinarith)]
      nlinarith
    have hR : (2:ℝ) ≤ Real.exp 0.0035 * (2 * Real.exp (-25 / (2 * (60 * t0) ^ 2))) := by
      have hmono := Real.exp_le_exp.mpr harg
      have h1 := Real.add_one_le_exp (-0.0035:ℝ)
      have hexp1 : Real.exp 0.0035 * Real.exp (-0.0035) = 1 := by
        rw [← Real.exp_add]; norm_num
      nlinarith [Real.exp_pos (0.0035:ℝ)]
    linarith
  have hF3 : sigmoid ((2000 - sx) * 10) ≤
      Real.exp 0.001 * sigmoid ((2000 - 0) * 10) := by
    have hle := sigmoid_le_one ((2000 - sx) * 10)
    have hge : Real.exp (-0.001) ≤ sigmoid ((2000 - 0) * 10) := by
      rw [show ((2000:ℝ) - 0) * 10 = 20000 by norm_num]
      exact sigmoid_20000_ge
    have hexp1 : Real.exp 0.001 * Real.exp (-0.001) = 1 := by
      rw [← Real.exp_add]; norm_num
    nlinarith [Real.exp_pos (0.001:ℝ)]
  have hP1nn : (0:ℝ) ≤ Real.exp 0 / (2 * Real.pi * 3 * (80 * t1) * (60 * t1)) :=
    le_of_lt (div_pos (Real.exp_pos _) hden1)
  have hP0nn : (0:ℝ) ≤ Real.exp 0 / (2 * Real.pi * 3 * (80 * t0) * (60 * t0)) :=
    le_of_lt (div_pos (Real.exp_pos _) hden0)
  have hV1nn : (0:ℝ) ≤ 2 * Real.exp (-25 / (2 * (60 * t1) ^ 2)) := by positivity
  have hV0nn : (0:ℝ) ≤ 2 * Real.exp (-25 / (2 * (60 * t0) ^ 2)) := by positivity
  have hS1nn : (0:ℝ) ≤ sigmoid ((2000 - sx) * 10) := (sigmoid_pos _).le
  have hS0nn : (0:ℝ) ≤ sigmoid ((2000 - 0) * 10) := (sigmoid_pos _).le
  have key := mul_le_mul
    (mul_le_mul hF1 hF2 hV1nn
      (mul_nonneg (Real.exp_pos (0.0002:ℝ)).le hP0nn))
    hF3 hS1nn
    (mul_nonneg (mul_nonneg (Real.exp_pos (0.0002:ℝ)).le hP0nn)
      (mul_nonneg (Real.exp_pos (0.0035:ℝ)).le hV0nn))
  refine le_trans key ?_
  have hexp47 : Real.exp 0.0002 * Real.exp 0.0035 * Real.exp 0.001 =
      Real.exp 0.0047 := by
    rw [← Real.exp_add, ← Real.exp_add]; norm_num
  have hprodnn : (0:ℝ) ≤ Real.exp 0 / (2 * Real.pi * 3 * (80 * t0) * (60 * t0))
      * (2 * Real.exp (-25 / (2 * (60 * t0) ^ 2)))
      * sigmoid ((2000 - 0) * 10) :=
    mul_nonneg (mul_nonneg hP0nn hV0nn) hS0nn
  calc Real.exp 0.0002 * (Real.exp 0 / (2 * Real.pi * 3 * (80 * t0) * (60 * t0)))
        * (Real.exp 0.0035 * (2 * Real.exp (-25 / (2 * (60 * t0) ^ 2))))
        * (Real.exp 0.001 * sigmoid ((2000 - 0) * 10))
      = Real.exp 0.0002 * Real.exp 0.0035 * Real.exp 0.001 *
        (Real.exp 0 / (2 * Real.pi * 3 * (80 * t0) * (60 * t0))
          * (2 * Real.exp (-25 / (2 * (60 * t0) ^ 2)))
          * sigmoid ((2000 - 0) * 10)) := by ring
    _ = Real.exp 0.0047 * (Real.exp 0 / (2 * Real.pi * 3 * (80 * t0) * (60 * t0))
          * (2 * Real.exp (-25 / (2 * (60 * t0) ^ 2)))
          * sigmoid ((2000 - 0) * 10)) := by rw [hexp47]
    _ ≤ Real.exp 0.005 * (Real.exp 0 / (2 * Real.pi * 3 * (80 * t0) * (60 * t0))
          * (2 * Real.exp (-25 / (2 * (60 * t0) ^ 2)))
          * sigmoid ((2000 - 0) * 10)) :=
      mul_le_mul_of_nonneg_right
        (Real.exp_le_exp.mpr (by norm_num)) hprodnn

lemma lossOf_p0run (m : GaussianPlumeModel) :
    lossOf p0run m = (concAt m 3 2000 0 0) ^ 2 := by
  unfold lossOf mseB predScaled predList p0run GaussianPlumeModel.forward
    expandTo listMean
  simp [forwardL]

lemma gradQ_p0run (m : GaussianPlumeModel) :
    gradOf p0run m (dpredLogQ p0run m) = 2 * (concAt m 3 2000 0 0) ^ 2 := by
  unfold gradOf mseGrad predScaled dpredLogQ predList p0run
    GaussianPlumeModel.forward expandTo listMean
  simp [forwardL]
  ring

lemma gradY_p0run : gradOf p0run m60 (dpredY p0run m60) = 0 := by
  unfold gradOf mseGrad predScaled dpredY predList p0run
    GaussianPlumeModel.forward expandTo listMean dConc_dsrcy m60
  simp [forwardL]

lemma hessian_p0run (m : GaussianPlumeModel) :
    hessianLogQ p0run m = 4 * (concAt m 3 2000 0 0) ^ 2 := by
  unfold hessianLogQ predList p0run GaussianPlumeModel.forward expandTo listMean
  simp [forwardL]
  ring

/-- log_Q after the single Adam step of the counterexample run. -/
def lq1 : ℝ := 60 - 0.1 * (2 * c0run ^ 2) / (|2 * c0run ^ 2| + 1e-8)

/-- src_x after the single Adam step of the counterexample run. -/
def sx1 : ℝ := 0 - 0.1 * gX0 / (|gX0| + 1e-8)

lemma optim1_model_eq : (optimSeq p0run s0run 1).model = ⟨lq1, sx1, 0, 5, "D"⟩ := by
  show (iterStep p0run s0run).model = _
  unfold iterStep
  simp only [s0run]
  simp only [zero_add]
  rw [adamDelta_t1, adamDelta_t1, adamDelta_t1, gradQ_p0run, gradY_p0run]
  unfold lq1 sx1 gX0 c0run m60
  simp only [GaussianPlumeModel.mk.injEq]
  norm_num

lemma c0run_ge_one : (1:ℝ) ≤ c0run := by
  have hf : c0run = Real.exp 60 * concAt ⟨0, 0, 0, 5, "D"⟩ 3 2000 0 0 := by
    unfold c0run m60
    exact conc_factor 60 0 0 5 "D" 3 2000 0 0
  have he : (1152921504606846976:ℝ) ≤ Real.exp 60 := by
    have := exp_ge_two_pow 60
    norm_num at this
    exact this
  have h60 : (1e6:ℝ) ≤ (1152921504606846976:ℝ) := by norm_num
  have hk := k0_ge
  have := mul_le_mul (le_trans h60 he) hk (by norm_num) (Real.exp_pos 60).le
  rw [hf]
  nlinarith

lemma lq1_bounds : 59.9 ≤ lq1 ∧ lq1 ≤ 59.9001 := by
  have hc := c0run_ge_one
  have hg2 : (2:ℝ) ≤ 2 * c0run ^ 2 := by nlinarith
  have habs : |2 * c0run ^ 2| = 2 * c0run ^ 2 := abs_of_pos (by nlinarith)
  unfold lq1
  rw [habs]
  have hd : (0:ℝ) < 2 * c0run ^ 2 + 1e-8 := by nlinarith
  constructor
  · have hΔ : 0.1 * (2 * c0run ^ 2) / (2 * c0run ^ 2 + 1e-8) ≤ 0.1 := by
      rw [div_le_iff₀ hd]
      nlinarith
    linarith
  · have hΔ : 0.0999 ≤ 0.1 * (2 * c0run ^ 2) / (2 * c0run ^ 2 + 1e-8) := by
      rw [le_div_iff₀ hd]
      nlinarith
    linarith

lemma sx1_bound : |sx1| ≤ 0.1 := by
  unfold sx1
  have hd : (0:ℝ) < |gX0| + 1e-8 := by positivity
  rw [zero_sub, abs_neg, abs_div, abs_of_pos hd, abs_mul,
    abs_of_pos (by norm_num : (0:ℝ) < 0.1), div_le_iff₀ hd]
  nlinarith [abs_nonneg gX0]

/-- The prediction after the single optimizer step of the run. -/
def c1run : ℝ := concAt ⟨lq1, sx1, 0, 5, "D"⟩ 3 2000 0 0

lemma c1run_lt_c0run : c1run < c0run := by
  have hup := kD_upper sx1 sx1_bound
  have hc1 : c1run = Real.exp lq1 * concAt ⟨0, sx1, 0, 5, "D"⟩ 3 2000 0 0 := by
    unfold c1run
    exact conc_factor lq1 sx1 0 5 "D" 3 2000 0 0
  have hc0 : c0run = Real.exp 60 * concAt ⟨0, 0, 0, 5, "D"⟩ 3 2000 0 0 := by
    unfold c0run m60
    exact conc_factor 60 0 0 5 "D" 3 2000 0 0
  have hk0pos : (0:ℝ) < concAt ⟨0, 0, 0, 5, "D"⟩ 3 2000 0 0 := concAt_pos _ _ _ _ _
  have hkspos : (0:ℝ) ≤ concAt ⟨0, sx1, 0, 5, "D"⟩ 3 2000 0 0 :=
    (concAt_pos _ _ _ _ _).le
  have hlq := lq1_bounds.2
  have hexp1 : Real.exp lq1 ≤ Real.exp 59.9001 := Real.exp_le_exp.mpr hlq
  calc c1run = Real.exp lq1 * concAt ⟨0, sx1, 0, 5, "D"⟩ 3 2000 0 0 := hc1
    _ ≤ Real.exp 59.9001 * (Real.exp 0.005 * concAt ⟨0, 0, 0, 5, "D"⟩ 3 2000 0 0) := by
      have h1 : Real.exp lq1 * concAt ⟨0, sx1, 0, 5, "D"⟩ 3 2000 0 0 ≤
          Real.exp 59.9001 * concAt ⟨0, sx1, 0, 5, "D"⟩ 3 2000 0 0 :=
        mul_le_mul_of_nonneg_right hexp1 hkspos
      have h2 : Real.exp 59.9001 * concAt ⟨0, sx1, 0, 5, "D"⟩ 3 2000 0 0 ≤
          Real.exp 59.9001 * (Real.exp 0.005 * concAt ⟨0, 0, 0, 5, "D"⟩ 3 2000 0 0) :=
        mul_le_mul_of_nonneg_left hup (Real.exp_pos _).le
      linarith
    _ = Real.exp 59.9051 * concAt ⟨0, 0, 0, 5, "D"⟩ 3 2000 0 0 := by
      rw [show Real.exp 59.9001 * (Real.exp 0.005 * concAt ⟨0, 0, 0, 5, "D"⟩ 3 2000 0 0)
        = (Real.exp 59.9001 * Real.exp 0.005) * concAt ⟨0, 0, 0, 5, "D"⟩ 3 2000 0 0 by ring,
        ← Real.exp_add]
      norm_num
    _ < Real.exp 60 * concAt ⟨0, 0, 0, 5, "D"⟩ 3 2000 0 0 :=
      mul_lt_mul_of_pos_right (Real.exp_lt_exp.mpr (by norm_num)) hk0pos
    _ = c0run := hc0.symm

lemma ciFromHessian_snd_le (lq h : ℝ) (hh : 0 < h) :
    (ciFromHessian lq h).2 ≤ Real.exp 50 * 3600 := by
  unfold ciFromHessian
  rw [if_pos hh]
  simp only
  refine mul_le_mul_of_nonneg_right (Real.exp_le_exp.mpr ?_) (by norm_num)
  exact max_le (by norm_num) (min_le_right _ _)

/-- Configuration of the C2 counterexample run. -/
def cfgC2 : InverterConfig := ⟨0.1, 1e-6, 1, 300, "D"⟩

/-- C2 counterexample: one all-zero observation, caller initial_Q = e^60 and
a single optimizer iteration leave log_Q near 60; the Wald CI exponents are
clipped at 50 while the point estimate is not, so the returned result has
confidence_interval[1] strictly below estimated_Q_kg_hr, refuting the
claimed ordering. -/
theorem claim_C2_counterexample :
    ∃ r, invert cfgC2 d0run = .ok r ∧
      r.confidence_interval.2 < r.estimated_Q_kg_hr := by
  have hok := invert_returns_ok cfgC2 d0run (by decide) (by simp [d0run]) rfl rfl rfl
  rw [prep_d0run, s0_d0run cfgC2 rfl rfl] at hok
  have hnt : ∀ j, 0 ≤ j → j < 0 + 1 → ¬ triggerAt cfgC2 p0run s0run j := by
    intro j _ hj htk
    have hj0 : j = 0 := by omega
    subst hj0
    exact absurd htk.1 (by decide)
  have hloop := loopGo_no_trigger cfgC2 p0run s0run 1 0 hnt
  rw [show cfgC2.max_iterations = 1 from rfl,
    show (⟨s0run, none, 0, false, 0⟩ : LoopResult) = runStateAt p0run s0run 0 from rfl,
    hloop] at hok
  refine ⟨_, hok, ?_⟩
  show (assembleResult p0run (runStateAt p0run s0run (0 + 1))
    d0run.true_Q_kg_hr).confidence_interval.2 < _
  unfold assembleResult
  simp only [runStateAt]
  rw [show (0 + 1 : ℕ) = 1 from rfl, optim1_model_eq]
  have hhval : hessianLogQ p0run ⟨lq1, sx1, 0, 5, "D"⟩ = 4 * c1run ^ 2 := by
    rw [hessian_p0run]
    rfl
  have hc1pos : (0:ℝ) < c1run := by
    unfold c1run
    exact concAt_pos _ _ _ _ _
  have hhpos : 0 < hessianLogQ p0run ⟨lq1, sx1, 0, 5, "D"⟩ := by
    rw [hhval]
    positivity
  have hci2 : (confidenceInterval p0run ⟨lq1, sx1, 0, 5, "D"⟩).2 ≤
      Real.exp 50 * 3600 := by
    unfold confidenceInterval
    exact ciFromHessian_snd_le _ _ hhpos
  have hest : Real.exp 59.9 * 3600 ≤
      (⟨lq1, sx1, 0, 5, "D"⟩ : GaussianPlumeModel).Q_kg_hr := by
    unfold GaussianPlumeModel.Q_kg_hr GaussianPlumeModel.Q
    simp only
    have := Real.exp_le_exp.mpr lq1_bounds.1
    nlinarith
  have h1 := roundTo_le_add_one 4 ((confidenceInterval p0run ⟨lq1, sx1, 0, 5, "D"⟩).2)
  have h2 := sub_one_le_roundTo 4 ((⟨lq1, sx1, 0, 5, "D"⟩ : GaussianPlumeModel).Q_kg_hr)
  have hgap : Real.exp 50 * 3600 + 1 < Real.exp 59.9 * 3600 - 1 := by
    have hsplit : Real.exp 59.9 = Real.exp 50 * Real.exp 9.9 := by
      rw [← Real.exp_add]; norm_num
    have h99 : (2:ℝ) ≤ Real.exp 9.9 := by
      have := Real.add_one_le_exp (9.9:ℝ)
      linarith
    have h50 : (1:ℝ) ≤ Real.exp 50 := Real.one_le_exp (by norm_num)
    nlinarith
  linarith

/-- Loss of iteration 0 of the counterexample run. -/
def L0run : ℝ := lossSeq p0run s0run 0

/-- Loss of iteration 1 of the counterexample run. -/
def L1run : ℝ := lossSeq p0run s0run 1

/-- A convergence tolerance chosen exactly at the claim's (guard-free)
relative loss change of iteration 1. -/
def tolC4 : ℝ := |L0run - L1run| / |L0run|

/-- Configuration of the C4 counterexample run. -/
def cfgC4 : InverterConfig := ⟨0.1, tolC4, 2, 1, "D"⟩

lemma L0run_eq : L0run = c0run ^ 2 := by
  unfold L0run lossSeq
  rw [show (optimSeq p0run s0run 0).model = m60 from rfl, lossOf_p0run]
  rfl

lemma L1run_eq : L1run = c1run ^ 2 := by
  unfold L1run lossSeq
  rw [optim1_model_eq, lossOf_p0run]
  rfl

lemma L0run_pos : 0 < L0run := by
  rw [L0run_eq]
  have h : (0:ℝ) < c0run := by
    unfold c0run
    exact concAt_pos _ _ _ _ _
  positivity

lemma L1run_lt_L0run : L1run < L0run := by
  rw [L0run_eq, L1run_eq]
  have h1 : (0:ℝ) < c1run := by
    unfold c1run
    exact concAt_pos _ _ _ _ _
  exact pow_lt_pow_left c1run_lt_c0run h1.le (by norm_num)

lemma codeRel_lt_tolC4 :
    |L0run - L1run| / (|L0run| + 1e-30) < tolC4 := by
  unfold tolC4
  apply div_lt_div_of_pos_left
  · rw [abs_pos]
    exact sub_ne_zero.mpr (ne_of_gt L1run_lt_L0run)
  · exact abs_pos.mpr (ne_of_gt L0run_pos)
  · linarith [abs_nonneg L0run]

/-- C4 counterexample: with tolerance chosen exactly at the guard-free
relative change of iteration 1, the run converges (the code divides by
|prev| + 1e-30, strictly enlarging the denominator), yet no performed
iteration satisfies the claim's criterion |prev - cur| / |prev| < tol; the
claimed if-and-only-if therefore fails on this run. -/
theorem claim_C4_counterexample :
    ∃ r, invert cfgC4 d0run = .ok r ∧ r.converged = true ∧ r.n_iterations = 2 ∧
      ∀ i, i < r.n_iterations → cfgC4.min_iterations ≤ i → 1 ≤ i →
        ¬(|lossSeq (prepOf d0run) (s0Of cfgC4 d0run) (i - 1) -
            lossSeq (prepOf d0run) (s0Of cfgC4 d0run) i| /
          |lossSeq (prepOf d0run) (s0Of cfgC4 d0run) (i - 1)| <
          cfgC4.convergence_tol) := by
  have hok := invert_returns_ok cfgC4 d0run (by decide) (by simp [d0run]) rfl rfl rfl
  rw [prep_d0run, s0_d0run cfgC4 rfl rfl] at hok
  have htrig1 : triggerAt cfgC4 p0run s0run 1 :=
    ⟨by decide, decide_eq_true codeRel_lt_tolC4⟩
  have hmin0 : ∀ k, 0 ≤ k → k < 1 → ¬ triggerAt cfgC4 p0run s0run k := by
    intro k _ hk htk
    have hk0 : k = 0 := by omega
    subst hk0
    have h2 := htk.2
    simp [relOk, prevOf] at h2
  have hloop := loopGo_first_trigger cfgC4 p0run s0run 2 0 1 (by omega) (by omega)
    htrig1 hmin0
  rw [show cfgC4.max_iterations = 2 from rfl,
    show (⟨s0run, none, 0, false, 0⟩ : LoopResult) = runStateAt p0run s0run 0 from rfl,
    hloop] at hok
  refine ⟨_, hok, rfl, rfl, ?_⟩
  intro i hi _ h1i
  have hi2 : i < 2 := hi
  have hieq : i = 1 := by omega
  subst hieq
  rw [prep_d0run, s0_d0run cfgC4 rfl rfl]
  show ¬(|L0run - L1run| / |L0run| < tolC4)
  unfold tolC4
  exact lt_irrefl _

/-- Witness for the amended C4 at a concrete successful invert call. -/
theorem claim_C4_amended_witness :
    ∃ r, invert ⟨0.1, 1e-6, 1, 300, "D"⟩ ⟨[0], [2000], [0], [0], 3, 0.01, 5, none⟩ =
        .ok r ∧
      ((r.converged = true ↔
        ∃ i, i < InverterConfig.max_iterations ⟨0.1, 1e-6, 1, 300, "D"⟩ ∧
          triggerSpecC4 ⟨0.1, 1e-6, 1, 300, "D"⟩
            (prepOf ⟨[0], [2000], [0], [0], 3, 0.01, 5, none⟩)
            (s0Of ⟨0.1, 1e-6, 1, 300, "D"⟩ ⟨[0], [2000], [0], [0], 3, 0.01, 5, none⟩) i) ∧
      (r.converged = true →
        ∃ i, i < InverterConfig.max_iterations ⟨0.1, 1e-6, 1, 300, "D"⟩ ∧
          triggerSpecC4 ⟨0.1, 1e-6, 1, 300, "D"⟩
            (prepOf ⟨[0], [2000], [0], [0], 3, 0.01, 5, none⟩)
            (s0Of ⟨0.1, 1e-6, 1, 300, "D"⟩ ⟨[0], [2000], [0], [0], 3, 0.01, 5, none⟩) i ∧
          (∀ j, j < i → ¬ triggerSpecC4 ⟨0.1, 1e-6, 1, 300, "D"⟩
            (prepOf ⟨[0], [2000], [0], [0], 3, 0.01, 5, none⟩)
            (s0Of ⟨0.1, 1e-6, 1, 300, "D"⟩ ⟨[0], [2000], [0], [0], 3, 0.01, 5, none⟩) j) ∧
          r.n_iterations = i + 1 ∧
          r.final_loss = roundTo 12
            (lossSeq (prepOf ⟨[0], [2000], [0], [0], 3, 0.01, 5, none⟩)
              (s0Of ⟨0.1, 1e-6, 1, 300, "D"⟩ ⟨[0], [2000], [0], [0], 3, 0.01, 5, none⟩) i)) ∧
      (r.converged = false →
        r.n_iterations = InverterConfig.max_iterations ⟨0.1, 1e-6, 1, 300, "D"⟩ ∧
        r.final_loss = roundTo 12
          (lossSeq (prepOf ⟨[0], [2000], [0], [0], 3, 0.01, 5, none⟩)
            (s0Of ⟨0.1, 1e-6, 1, 300, "D"⟩ ⟨[0], [2000], [0], [0], 3, 0.01, 5, none⟩)
            (InverterConfig.max_iterations ⟨0.1, 1e-6, 1, 300, "D"⟩ - 1)))) := by
  have hok := invert_returns_ok ⟨0.1, 1e-6, 1, 300, "D"⟩
    ⟨[0], [2000], [0], [0], 3, 0.01, 5, none⟩ (by decide) (by simp) rfl rfl rfl
  exact ⟨_, hok, claim_C4_amended _ _ _ hok⟩
